import Mathlib

/-!
# cobalt/media/decoder_buffer_allocator.cc

A shallow embedding of `cobalt::media::DecoderBufferAllocator` (the Buffer Pool
Manager) and of the interfaces it is written against.

* Pointers (`void*`) are natural numbers, the null pointer is `0`.
* `std::size_t` values are natural numbers; a conversion from `int` goes through
  `to_size_t`, and the byte counter of the non-pooled path wraps modulo
  `2 ^ size_t_bits`.
* `nb::BidirectionalFitReuseAllocator` (the Pool Allocator) and the Starboard
  functions are not part of the sources at hand: they are parameters
  (`BidirectionalFitReuseAllocator P`, `Starboard H`).
* The mutex is not modelled: every operation is one atomic step.
* `DCHECK`s are compiled out of release builds; the functions below follow the
  release build and the asserted conditions are given as separate predicates
  (`..._DCHECK`).
-/

namespace cobalt
namespace media

/-! ## Constants of the anonymous namespace (lines 31-40) -/

/-- Source constant `kAllocationRecordGranularity = 512 * 1024`. -/
def kAllocationRecordGranularity : Nat := 512 * 1024

/-- Source constant `kSmallAllocationThreshold = 512`. -/
def kSmallAllocationThreshold : Nat := 512

/-! ## External types -/

/-- Starboard video codec enumeration: only `kSbMediaVideoCodecNone` is named by
the source, every other enumerator is `codec id`. -/
inductive SbMediaVideoCodec where
  | kSbMediaVideoCodecNone
  | codec (id : Nat)
  deriving DecidableEq, Repr

/-- The part of `VideoDecoderConfig` that `UpdateVideoConfig` reads:
`codec()`, `visible_rect().size().width()`, `visible_rect().size().height()`
and `webm_color_metadata().BitsPerChannel`. -/
structure VideoDecoderConfig where
  codec : Nat
  width : Int
  height : Int
  BitsPerChannel : Int
  deriving DecidableEq, Repr

/-- Conversion of a C `int` to `std::size_t` on a platform whose `std::size_t`
has `bits` bits. -/
def to_size_t (bits : Nat) (i : Int) : Nat := (i % (2 : Int) ^ bits).toNat

/-- The Starboard functions and build settings the file calls; `H` is the state
of the platform heap behind `SbMemoryAllocateAligned`. -/
structure Starboard (H : Type) where
  size_t_bits : Nat
  COBALT_BUILD_TYPE_GOLD : Bool
  SbMediaIsBufferUsingMemoryPool : Bool
  SbMediaIsBufferPoolAllocateOnDemand : Bool
  SbMediaGetInitialBufferCapacity : Int
  SbMediaGetBufferAllocationUnit : Int
  SbMediaGetMaxBufferCapacity : SbMediaVideoCodec → Int → Int → Int → Int
  MediaVideoCodecToSbMediaVideoCodec : Nat → SbMediaVideoCodec
  SbMemoryAllocateAligned : H → Nat → Nat → Nat × H
  SbMemoryDeallocateAligned : H → Nat → H

/-- The interface of `nb::BidirectionalFitReuseAllocator` as used by the file;
`P` is the state of one Pool Allocator instance. `create` is the constructor
`(initial_capacity, small_allocation_threshold, allocation_increment,
max_capacity)`; `Allocate` returns the pointer (0 for null) and the new
state. -/
structure BidirectionalFitReuseAllocator (P : Type) where
  create : Nat → Nat → Nat → Nat → P
  Allocate : P → Nat → Nat → Nat × P
  Free : P → Nat → P
  GetAllocated : P → Nat
  GetCapacity : P → Nat
  max_capacity : P → Nat
  IncreaseMaxCapacityIfNecessary : P → Nat → P
  CapacityExceeded : P → Bool

/-- The record `DecoderBuffer::Allocator::Allocations`: the list of
`(buffer, buffer_size)` pairs; `Allocations()` is the empty list and
`Allocations(p, size)` the one-element list. -/
abbrev Allocations := List (Nat × Nat)

/-! ## The Manager -/

/-- The data members of `DecoderBufferAllocator`. `allocation_record` holds the
two function-local statics of `UpdateAllocationRecord`
(`max_allocated`, `max_capacity`), `none` until their first initialisation;
`sbmemory` is the platform heap reached through `SbMemory*`. -/
structure DecoderBufferAllocator (P H : Type) where
  using_memory_pool_ : Bool
  is_memory_pool_allocated_on_demand_ : Bool
  initial_capacity_ : Int
  allocation_unit_ : Int
  reuse_allocator_ : Option P
  video_codec_ : SbMediaVideoCodec
  resolution_width_ : Int
  resolution_height_ : Int
  bits_per_pixel_ : Int
  sbmemory_bytes_used_ : Nat
  sbmemory : H
  allocation_record : Option (Nat × Nat)

namespace DecoderBufferAllocator

variable {P H : Type}

/-- `CreateReuseAllocator(int max_capacity)` (lines 240-249). -/
def CreateReuseAllocator (A : BidirectionalFitReuseAllocator P) (sb : Starboard H)
    (m : DecoderBufferAllocator P H) (max_capacity : Int) : DecoderBufferAllocator P H :=
  let pool : P :=
    A.create (to_size_t sb.size_t_bits m.initial_capacity_) kSmallAllocationThreshold
      (to_size_t sb.size_t_bits m.allocation_unit_) (to_size_t sb.size_t_bits max_capacity)
  { m with reuse_allocator_ := some pool }

/-- The constructor (lines 42-65). The in-class initialisers of the header are
not in the sources: the codec starts as `kSbMediaVideoCodecNone` (lines 60-62),
the byte counter at 0, and the initial width, height and bit depth are the
arguments `width0 height0 bits0`. -/
def construct (A : BidirectionalFitReuseAllocator P) (sb : Starboard H) (heap : H)
    (width0 height0 bits0 : Int) : DecoderBufferAllocator P H :=
  let m : DecoderBufferAllocator P H :=
    { using_memory_pool_ := sb.SbMediaIsBufferUsingMemoryPool
      is_memory_pool_allocated_on_demand_ := sb.SbMediaIsBufferPoolAllocateOnDemand
      initial_capacity_ := sb.SbMediaGetInitialBufferCapacity
      allocation_unit_ := sb.SbMediaGetBufferAllocationUnit
      reuse_allocator_ := none
      video_codec_ := SbMediaVideoCodec.kSbMediaVideoCodecNone
      resolution_width_ := width0
      resolution_height_ := height0
      bits_per_pixel_ := bits0
      sbmemory_bytes_used_ := 0
      sbmemory := heap
      allocation_record := none }
  if !m.using_memory_pool_ then m
  else if m.is_memory_pool_allocated_on_demand_ then m
  else CreateReuseAllocator A sb m 0

/-- The condition of `DCHECK_EQ(reuse_allocator_->GetAllocated(), 0)` in the
destructor (line 77); it is evaluated only when a pool is live. -/
def destruct_DCHECK (A : BidirectionalFitReuseAllocator P) (m : DecoderBufferAllocator P H) :
    Bool :=
  if !m.using_memory_pool_ then true
  else
    match m.reuse_allocator_ with
    | some p => decide (A.GetAllocated p = 0)
    | none => true

/-- The destructor body (lines 67-80): the state right after it ran. -/
def destruct (m : DecoderBufferAllocator P H) : DecoderBufferAllocator P H :=
  if !m.using_memory_pool_ then m
  else
    match m.reuse_allocator_ with
    | some _ => { m with reuse_allocator_ := none }
    | none => m

/-- `Suspend()` (lines 82-96). -/
def Suspend (A : BidirectionalFitReuseAllocator P) (m : DecoderBufferAllocator P H) :
    DecoderBufferAllocator P H :=
  if !m.using_memory_pool_ || m.is_memory_pool_allocated_on_demand_ then m
  else
    match m.reuse_allocator_ with
    | some p => if A.GetAllocated p = 0 then { m with reuse_allocator_ := none } else m
    | none => m

/-- `Resume()` (lines 98-110). -/
def Resume (A : BidirectionalFitReuseAllocator P) (sb : Starboard H)
    (m : DecoderBufferAllocator P H) : DecoderBufferAllocator P H :=
  if !m.using_memory_pool_ || m.is_memory_pool_allocated_on_demand_ then m
  else
    match m.reuse_allocator_ with
    | none => CreateReuseAllocator A sb m 0
    | some _ => m

/-- `UpdateAllocationRecord()` (lines 251-287) on the pool `p`: the returned
flag and the new value of the two statics. -/
def UpdateAllocationRecord (A : BidirectionalFitReuseAllocator P) (sb : Starboard H)
    (m : DecoderBufferAllocator P H) (p : P) : Bool × Option (Nat × Nat) :=
  let record : Option (Nat × Nat) :=
    if sb.COBALT_BUILD_TYPE_GOLD then m.allocation_record
    else
      let w := sb.size_t_bits
      let statics : Nat × Nat :=
        match m.allocation_record with
        | some s => s
        | none => (to_size_t w (Int.tdiv m.initial_capacity_ 2), to_size_t w m.initial_capacity_)
      let max_allocated :=
        if A.GetAllocated p > (statics.1 + kAllocationRecordGranularity) % 2 ^ w
        then A.GetAllocated p else statics.1
      let max_capacity :=
        if A.GetCapacity p > (statics.2 + kAllocationRecordGranularity) % 2 ^ w
        then A.GetCapacity p else statics.2
      some (max_allocated, max_capacity)
  if A.CapacityExceeded p then (false, record) else (true, record)

/-- The two `DCHECK_GT`s and the `DCHECK(is_memory_pool_allocated_on_demand_)`
of `Allocate` (lines 124, 128, 129); they are evaluated only when pooling is on
and no pool is live. -/
def Allocate_DCHECK (m : DecoderBufferAllocator P H) : Bool :=
  if !m.using_memory_pool_ then true
  else
    match m.reuse_allocator_ with
    | some _ => true
    | none =>
      m.is_memory_pool_allocated_on_demand_ &&
        (if m.video_codec_ ≠ SbMediaVideoCodec.kSbMediaVideoCodecNone
         then decide (m.resolution_width_ > 0) && decide (m.resolution_height_ > 0)
         else true)

/-- `Allocate(size, alignment, context)` (lines 112-151): the returned record
and the state afterwards. -/
def Allocate (A : BidirectionalFitReuseAllocator P) (sb : Starboard H)
    (m : DecoderBufferAllocator P H) (size alignment : Nat) (context : Int) :
    Allocations × DecoderBufferAllocator P H :=
  let _ := context
  if !m.using_memory_pool_ then
    let r := sb.SbMemoryAllocateAligned m.sbmemory alignment size
    ([(r.1, size)],
      { m with
        sbmemory_bytes_used_ := (m.sbmemory_bytes_used_ + size) % 2 ^ sb.size_t_bits
        sbmemory := r.2 })
  else
    let m1 :=
      match m.reuse_allocator_ with
      | some _ => m
      | none =>
        let max_capacity : Int :=
          if m.video_codec_ ≠ SbMediaVideoCodec.kSbMediaVideoCodecNone then
            sb.SbMediaGetMaxBufferCapacity m.video_codec_ m.resolution_width_
              m.resolution_height_ m.bits_per_pixel_
          else 0
        CreateReuseAllocator A sb m max_capacity
    match m1.reuse_allocator_ with
    | none => ([], m1)
    | some pool =>
      let r := A.Allocate pool size alignment
      if r.1 = 0 then ([], { m1 with reuse_allocator_ := some r.2 })
      else
        let u := UpdateAllocationRecord A sb m1 r.2
        if !u.1 then
          ([], { m1 with reuse_allocator_ := some (A.Free r.2 r.1), allocation_record := u.2 })
        else
          ([(r.1, size)], { m1 with reuse_allocator_ := some r.2, allocation_record := u.2 })

/-- The condition of `DCHECK(reuse_allocator_)` in `Free` (line 166). -/
def Free_DCHECK (m : DecoderBufferAllocator P H) : Bool :=
  !m.using_memory_pool_ || m.reuse_allocator_.isSome

/-- `Free(allocations)` (lines 153-184). The result is `none` when the release
build dereferences the absent pool (lines 174, 178). -/
def Free (A : BidirectionalFitReuseAllocator P) (sb : Starboard H)
    (m : DecoderBufferAllocator P H) (allocations : Allocations) :
    Option (DecoderBufferAllocator P H) :=
  if !m.using_memory_pool_ then
    some (allocations.foldl
      (fun s b =>
        { s with
          sbmemory_bytes_used_ :=
            (s.sbmemory_bytes_used_ + (2 ^ sb.size_t_bits - b.2 % 2 ^ sb.size_t_bits))
              % 2 ^ sb.size_t_bits
          sbmemory := sb.SbMemoryDeallocateAligned s.sbmemory b.1 })
      m)
  else
    match m.reuse_allocator_ with
    | none =>
      if allocations.isEmpty && !m.is_memory_pool_allocated_on_demand_ then some m else none
    | some pool =>
      let pool1 := allocations.foldl (fun q b => A.Free q b.1) pool
      if m.is_memory_pool_allocated_on_demand_ then
        if A.GetAllocated pool1 = 0 then some { m with reuse_allocator_ := none }
        else some { m with reuse_allocator_ := some pool1 }
      else some { m with reuse_allocator_ := some pool1 }

/-- `UpdateVideoConfig(config)` (lines 186-207). -/
def UpdateVideoConfig (A : BidirectionalFitReuseAllocator P) (sb : Starboard H)
    (m : DecoderBufferAllocator P H) (config : VideoDecoderConfig) :
    DecoderBufferAllocator P H :=
  if !m.using_memory_pool_ then m
  else
    let m1 : DecoderBufferAllocator P H :=
      { m with
        video_codec_ := sb.MediaVideoCodecToSbMediaVideoCodec config.codec
        resolution_width_ := config.width
        resolution_height_ := config.height
        bits_per_pixel_ := config.BitsPerChannel }
    match m1.reuse_allocator_ with
    | none => m1
    | some pool =>
      let budget : Int :=
        sb.SbMediaGetMaxBufferCapacity m1.video_codec_ m1.resolution_width_
          m1.resolution_height_ m1.bits_per_pixel_
      let pool1 : P := A.IncreaseMaxCapacityIfNecessary pool (to_size_t sb.size_t_bits budget)
      { m1 with reuse_allocator_ := some pool1 }

/-- `GetAllocatedMemory()` (lines 209-215). -/
def GetAllocatedMemory (A : BidirectionalFitReuseAllocator P) (m : DecoderBufferAllocator P H) :
    Nat :=
  if !m.using_memory_pool_ then m.sbmemory_bytes_used_
  else
    match m.reuse_allocator_ with
    | some p => A.GetAllocated p
    | none => 0

/-- `GetCurrentMemoryCapacity()` (lines 217-223). -/
def GetCurrentMemoryCapacity (A : BidirectionalFitReuseAllocator P)
    (m : DecoderBufferAllocator P H) : Nat :=
  if !m.using_memory_pool_ then m.sbmemory_bytes_used_
  else
    match m.reuse_allocator_ with
    | some p => A.GetCapacity p
    | none => 0

/-- `GetMaximumMemoryCapacity()` (lines 225-238). -/
def GetMaximumMemoryCapacity (A : BidirectionalFitReuseAllocator P) (sb : Starboard H)
    (m : DecoderBufferAllocator P H) : Nat :=
  if m.video_codec_ = SbMediaVideoCodec.kSbMediaVideoCodecNone then 0
  else if !m.using_memory_pool_ then
    to_size_t sb.size_t_bits
      (sb.SbMediaGetMaxBufferCapacity m.video_codec_ m.resolution_width_ m.resolution_height_
        m.bits_per_pixel_)
  else
    match m.reuse_allocator_ with
    | some p => A.max_capacity p
    | none =>
      to_size_t sb.size_t_bits
        (sb.SbMediaGetMaxBufferCapacity m.video_codec_ m.resolution_width_ m.resolution_height_
          m.bits_per_pixel_)

/-- The pool on which `Allocate` runs the placement (line 137) in pooled mode:
the live pool, or else the one that lines 123-135 create. -/
def placement_pool (A : BidirectionalFitReuseAllocator P) (sb : Starboard H)
    (m : DecoderBufferAllocator P H) : P :=
  match m.reuse_allocator_ with
  | some p => p
  | none =>
    A.create (to_size_t sb.size_t_bits m.initial_capacity_) kSmallAllocationThreshold
      (to_size_t sb.size_t_bits m.allocation_unit_)
      (to_size_t sb.size_t_bits
        (if m.video_codec_ ≠ SbMediaVideoCodec.kSbMediaVideoCodecNone then
          sb.SbMediaGetMaxBufferCapacity m.video_codec_ m.resolution_width_
            m.resolution_height_ m.bits_per_pixel_
         else 0))

/-- One call of the public interface. -/
inductive Call where
  | Allocate (size alignment : Nat) (context : Int)
  | Free (allocations : Allocations)
  | UpdateVideoConfig (config : VideoDecoderConfig)
  | Suspend
  | Resume
  deriving DecidableEq, Repr

/-- The state after one call; `none` when `Free` dereferences an absent pool. -/
def step (A : BidirectionalFitReuseAllocator P) (sb : Starboard H)
    (m : DecoderBufferAllocator P H) : Call → Option (DecoderBufferAllocator P H)
  | Call.Allocate size alignment context => some (Allocate A sb m size alignment context).2
  | Call.Free allocations => Free A sb m allocations
  | Call.UpdateVideoConfig config => some (UpdateVideoConfig A sb m config)
  | Call.Suspend => some (Suspend A m)
  | Call.Resume => some (Resume A sb m)

/-- The state after a sequence of calls, made one after the other. -/
def run (A : BidirectionalFitReuseAllocator P) (sb : Starboard H)
    (m : DecoderBufferAllocator P H) : List Call → Option (DecoderBufferAllocator P H)
  | [] => some m
  | c :: cs =>
    match step A sb m c with
    | some m1 => run A sb m1 cs
    | none => none

/-- The condition of `DCHECK(is_memory_pool_allocated_on_demand_)` in `Allocate`
(line 124) alone; it is evaluated only when pooling is on and no pool is
live. -/
def Allocate_DCHECK_on_demand (m : DecoderBufferAllocator P H) : Bool :=
  if !m.using_memory_pool_ then true
  else
    match m.reuse_allocator_ with
    | some _ => true
    | none => m.is_memory_pool_allocated_on_demand_

/-- A discipline of the caller: no `Allocate` is made between a `Suspend` and the
next `Resume`. The flag says whether the last lifecycle call so far was
`Suspend`. -/
def resumed_at_allocate : Bool → List Call → Bool
  | _, [] => true
  | suspended, Call.Allocate _ _ _ :: cs => !suspended && resumed_at_allocate suspended cs
  | _, Call.Suspend :: cs => resumed_at_allocate true cs
  | _, Call.Resume :: cs => resumed_at_allocate false cs
  | suspended, Call.Free _ :: cs => resumed_at_allocate suspended cs
  | suspended, Call.UpdateVideoConfig _ :: cs => resumed_at_allocate suspended cs

/-- The pointer of the first buffer of a record (0 for the empty record). -/
def first_buffer : Allocations → Nat
  | [] => 0
  | b :: _ => b.1

/-- Modelled from the spec: the part of the Pool Allocator contract (section 3,
invariant 4, and section 4.1) that says which pointers are live, the class
itself being absent from the sources. `live p` lists the pointers handed out by
`p` and not yet freed, and `Inv` is an invariant of the pool's states: a new
pool has no live pointer; a successful `Allocate` adds its pointer and a failed
one adds nothing; `Free` of a live pointer takes it out;
`IncreaseMaxCapacityIfNecessary` changes nothing; and `GetAllocated()` is 0 only
when no pointer is live. -/
structure PoolTracks (A : BidirectionalFitReuseAllocator P) (Inv : P → Prop)
    (live : P → List Nat) : Prop where
  create_inv : ∀ i t u c, Inv (A.create i t u c)
  create_live : ∀ i t u c, live (A.create i t u c) = []
  allocate_inv : ∀ p s a, Inv p → Inv (A.Allocate p s a).2
  allocate_live : ∀ p s a, Inv p → (A.Allocate p s a).1 ≠ 0 →
    live (A.Allocate p s a).2 = (A.Allocate p s a).1 :: live p
  allocate_null : ∀ p s a, Inv p → (A.Allocate p s a).1 = 0 →
    live (A.Allocate p s a).2 = live p
  free_inv : ∀ p q, Inv p → q ∈ live p → Inv (A.Free p q)
  free_live : ∀ p q, Inv p → q ∈ live p → live (A.Free p q) = (live p).erase q
  increase_inv : ∀ p n, Inv p → Inv (A.IncreaseMaxCapacityIfNecessary p n)
  increase_live : ∀ p n, live (A.IncreaseMaxCapacityIfNecessary p n) = live p
  idle_live : ∀ p, Inv p → A.GetAllocated p = 0 → live p = []

/-- How a sequence of calls by one client ends: normally, with the state and the
records the client still holds; with a `Free` of a record the client does not
hold (`misuse`); or with a `Free` that finds no pool (`pool_absent`). -/
inductive Outcome (P H : Type) where
  | ok (m : DecoderBufferAllocator P H) (held : List Allocations)
  | misuse
  | pool_absent

/-- Whether the sequence ended at a `Free` that found no pool. -/
def Outcome.is_pool_absent : Outcome P H → Bool
  | Outcome.pool_absent => true
  | _ => false

/-- The records the client still holds when the sequence ended normally. -/
def Outcome.held_records : Outcome P H → Option (List Allocations)
  | Outcome.ok _ held => some held
  | _ => none

/-- A sequence of calls by a client that keeps the non-empty records returned by
`Allocate` and frees only records it holds, each once. A `Free` of a held record
ends the sequence in `pool_absent` when `DCHECK(reuse_allocator_)` fails or the
absent pool is dereferenced. -/
def client_run (A : BidirectionalFitReuseAllocator P) (sb : Starboard H) :
    DecoderBufferAllocator P H → List Allocations → List Call → Outcome P H
  | m, held, [] => Outcome.ok m held
  | m, held, Call.Allocate size alignment context :: cs =>
    client_run A sb (Allocate A sb m size alignment context).2
      (if (Allocate A sb m size alignment context).1 = [] then held
       else (Allocate A sb m size alignment context).1 :: held) cs
  | m, held, Call.Free allocations :: cs =>
    if allocations ∈ held then
      if Free_DCHECK m then
        match Free A sb m allocations with
        | some m1 => client_run A sb m1 (held.erase allocations) cs
        | none => Outcome.pool_absent
      else Outcome.pool_absent
    else Outcome.misuse
  | m, held, Call.UpdateVideoConfig config :: cs =>
    client_run A sb (UpdateVideoConfig A sb m config) held cs
  | m, held, Call.Suspend :: cs => client_run A sb (Suspend A m) held cs
  | m, held, Call.Resume :: cs => client_run A sb (Resume A sb m) held cs

end DecoderBufferAllocator

/-! ## A reference Pool Allocator and platform, for concrete runs -/

/-- Modelled from the spec: the state of a Pool Allocator (sections 3 and 4.1),
`nb::BidirectionalFitReuseAllocator` itself being absent from the sources. It
keeps the byte totals of the arena: the live allocations `(pointer, size)`, the
free bytes, the ceiling and the growth increment; the free space is one region
(no fragmentation) and the fallback allocator never fails. -/
structure RefPool where
  live : List (Nat × Nat)
  free_bytes : Nat
  max_capacity_ : Nat
  allocation_unit : Nat
  next : Nat
  deriving DecidableEq, Repr

namespace RefPool

/-- Modelled from the spec: `GetAllocated()`, the bytes currently live. -/
def GetAllocated (p : RefPool) : Nat := (p.live.map Prod.snd).sum

/-- Modelled from the spec: `GetCapacity()`, the bytes currently reserved; by
the conservation property it is the live bytes plus the free bytes. -/
def GetCapacity (p : RefPool) : Nat := p.GetAllocated + p.free_bytes

/-- Modelled from the spec: `CapacityExceeded()`, true if the reserved capacity
has grown past a non-zero `max_capacity`. -/
def CapacityExceeded (p : RefPool) : Bool :=
  decide (p.max_capacity_ ≠ 0) && decide (p.max_capacity_ < p.GetCapacity)

/-- Modelled from the spec: `IncreaseMaxCapacityIfNecessary(new_max)` raises the
ceiling to `max(current, new_max)` and never lowers it. -/
def IncreaseMaxCapacityIfNecessary (p : RefPool) (new_max : Nat) : RefPool :=
  { p with max_capacity_ := max p.max_capacity_ new_max }

/-- The least multiple of `unit` that is at least `n` (`n` itself when `unit`
is 0). -/
def round_up (n unit : Nat) : Nat :=
  if unit = 0 then n else (n + unit - 1) / unit * unit

/-- Modelled from the spec: growth of the arena by an `allocation_unit`-aligned
increment large enough for `size` bytes, allowed only if the resulting capacity
does not exceed a non-zero ceiling. -/
def grow (p : RefPool) (size : Nat) : Option RefPool :=
  let increment := round_up size p.allocation_unit
  if p.max_capacity_ = 0 ∨ p.GetCapacity + increment ≤ p.max_capacity_ then
    some { p with free_bytes := p.free_bytes + increment }
  else none

/-- Modelled from the spec: the constructor; the initial reservation is a first
growth of the empty arena. -/
def create (initial_capacity _small_allocation_threshold allocation_increment
    max_capacity : Nat) : RefPool :=
  let empty : RefPool :=
    { live := [], free_bytes := 0, max_capacity_ := max_capacity,
      allocation_unit := allocation_increment, next := 0 }
  if max_capacity = 0 ∨ initial_capacity ≤ max_capacity then
    { empty with free_bytes := initial_capacity }
  else empty

/-- Modelled from the spec: the placement of `size` bytes in the free space of
`p` at the next address that satisfies `alignment`. -/
def place (p : RefPool) (size alignment : Nat) : Nat × RefPool :=
  let pointer := round_up (p.next + 1) alignment
  (pointer,
    { p with
      live := (pointer, size) :: p.live
      free_bytes := p.free_bytes - size
      next := pointer + size })

/-- Modelled from the spec: `Allocate(size, alignment)`: place the request in
the free space, growing the arena first when the free space is too small; null
(0) when growth is disallowed by the ceiling. -/
def Allocate (p : RefPool) (size alignment : Nat) : Nat × RefPool :=
  if size ≤ p.free_bytes then place p size alignment
  else
    match grow p size with
    | some q => place q size alignment
    | none => (0, p)

/-- The first live allocation at `pointer` taken out of the list, with its
size. -/
def take_out (pointer : Nat) : List (Nat × Nat) → Option (Nat × List (Nat × Nat))
  | [] => none
  | b :: bs =>
    if b.1 = pointer then some (b.2, bs)
    else
      match take_out pointer bs with
      | some (size, rest) => some (size, b :: rest)
      | none => none

/-- Modelled from the spec: `Free(pointer)` marks the region free again; a
pointer that is not live changes nothing. -/
def Free (p : RefPool) (pointer : Nat) : RefPool :=
  match take_out pointer p.live with
  | some (size, rest) => { p with live := rest, free_bytes := p.free_bytes + size }
  | none => p

/-- The reference Pool Allocator as an instance of the interface. -/
def api : BidirectionalFitReuseAllocator RefPool where
  create := create
  Allocate := Allocate
  Free := Free
  GetAllocated := GetAllocated
  GetCapacity := GetCapacity
  max_capacity := fun p => p.max_capacity_
  IncreaseMaxCapacityIfNecessary := IncreaseMaxCapacityIfNecessary
  CapacityExceeded := CapacityExceeded

/-- Modelled from the spec: the reference Pool Allocator with a minimum block
size of one byte, so that every live allocation is counted by
`GetAllocated()`. -/
def api_min_block : BidirectionalFitReuseAllocator RefPool :=
  { api with Allocate := fun p size alignment => Allocate p (max size 1) alignment }

/-- Every live allocation of the pool has a positive size. -/
def all_counted (p : RefPool) : Prop := ∀ b ∈ p.live, 0 < b.2

/-- The live pointers of the pool. -/
def live_pointers (p : RefPool) : List Nat := p.live.map Prod.fst

end RefPool

/-- One mebibyte. -/
def MiB : Nat := 1024 * 1024

/-- A reference platform with a 64-bit `std::size_t`, an initial capacity and an
allocation unit of 1 MiB, and the budget `width * height` bytes for every codec
other than `kSbMediaVideoCodecNone`; the heap state counts the blocks handed
out. -/
def ref_starboard (using_memory_pool on_demand : Bool) : Starboard Nat where
  size_t_bits := 64
  COBALT_BUILD_TYPE_GOLD := false
  SbMediaIsBufferUsingMemoryPool := using_memory_pool
  SbMediaIsBufferPoolAllocateOnDemand := on_demand
  SbMediaGetInitialBufferCapacity := 1048576
  SbMediaGetBufferAllocationUnit := 1048576
  SbMediaGetMaxBufferCapacity := fun codec width height _ =>
    match codec with
    | SbMediaVideoCodec.kSbMediaVideoCodecNone => 0
    | SbMediaVideoCodec.codec _ => width * height
  MediaVideoCodecToSbMediaVideoCodec := fun c =>
    if c = 0 then SbMediaVideoCodec.kSbMediaVideoCodecNone else SbMediaVideoCodec.codec c
  SbMemoryAllocateAligned := fun heap _ _ => (heap + 1, heap + 1)
  SbMemoryDeallocateAligned := fun heap _ => heap

/-- A freshly constructed Manager on the reference platform. -/
def ref_manager (using_memory_pool on_demand : Bool) : DecoderBufferAllocator RefPool Nat :=
  DecoderBufferAllocator.construct RefPool.api (ref_starboard using_memory_pool on_demand) 0
    (-1) (-1) (-1)

/-- A configuration whose budget on the reference platform is 4 MiB. -/
def config_4MiB : VideoDecoderConfig :=
  { codec := 1, width := 2048, height := 2048, BitsPerChannel := 8 }

/-- A configuration whose budget on the reference platform is 512 KiB. -/
def config_512KiB : VideoDecoderConfig :=
  { codec := 1, width := 1024, height := 512, BitsPerChannel := 8 }

/-- The eager reference Manager after `UpdateVideoConfig(config_512KiB)`: its
pool has 1 MiB reserved under a ceiling of 512 KiB. -/
def ref_over_ceiling : DecoderBufferAllocator RefPool Nat :=
  DecoderBufferAllocator.UpdateVideoConfig RefPool.api (ref_starboard true false)
    (ref_manager true false) config_512KiB

/-- Scenario 1 of the spec on the on-demand reference Manager: 2 MiB allocated
while the codec is unknown, then `UpdateVideoConfig(config_4MiB)`. -/
def ref_scenario1 : DecoderBufferAllocator RefPool Nat :=
  DecoderBufferAllocator.UpdateVideoConfig RefPool.api (ref_starboard true true)
    (DecoderBufferAllocator.Allocate RefPool.api (ref_starboard true true)
      (ref_manager true true) (2 * MiB) 16 0).2 config_4MiB

/-- The pool of `ref_scenario1`: 2 MiB live, 1 MiB free, ceiling 4 MiB. -/
def ref_scenario1_pool : RefPool :=
  { live := [(16, 2 * MiB)], free_bytes := MiB, max_capacity_ := 4 * MiB,
    allocation_unit := MiB, next := 16 + 2 * MiB }

/-- The eager reference Manager after a successful `Allocate(4096, 16)`. -/
def ref_one_live : DecoderBufferAllocator RefPool Nat :=
  (DecoderBufferAllocator.Allocate RefPool.api (ref_starboard true false)
    (ref_manager true false) 4096 16 0).2

/-- The pool of `ref_one_live`: 4096 bytes live out of 1 MiB, no ceiling. -/
def ref_one_live_pool : RefPool :=
  { live := [(16, 4096)], free_bytes := MiB - 4096, max_capacity_ := 0,
    allocation_unit := MiB, next := 16 + 4096 }

/-- The on-demand reference Manager after `UpdateVideoConfig(config_4MiB)`: the
configuration is recorded and no pool is live. -/
def ref_configured : DecoderBufferAllocator RefPool Nat :=
  DecoderBufferAllocator.UpdateVideoConfig RefPool.api (ref_starboard true true)
    (ref_manager true true) config_4MiB

/-- The on-demand reference Manager after two successful `Allocate(4096, 16)`;
the records returned are `[(16, 4096)]` and `[(4128, 4096)]`. -/
def ref_two_live : DecoderBufferAllocator RefPool Nat :=
  (DecoderBufferAllocator.Allocate RefPool.api (ref_starboard true true)
    (DecoderBufferAllocator.Allocate RefPool.api (ref_starboard true true)
      (ref_manager true true) 4096 16 0).2 4096 16 0).2

/-- The pool of `ref_two_live`. -/
def ref_two_live_pool : RefPool :=
  { live := [(4128, 4096), (16, 4096)], free_bytes := MiB - 8192, max_capacity_ := 0,
    allocation_unit := MiB, next := 4128 + 4096 }

/-- The pool of `ref_two_live` after the buffer at 16 was freed. -/
def ref_two_live_pool_rest : RefPool :=
  { live := [(4128, 4096)], free_bytes := MiB - 4096, max_capacity_ := 0,
    allocation_unit := MiB, next := 4128 + 4096 }

/-- The eager reference Manager with `config_4MiB` recorded, suspended while
idle and resumed. -/
def ref_resumed : DecoderBufferAllocator RefPool Nat :=
  DecoderBufferAllocator.Resume RefPool.api (ref_starboard true false)
    (DecoderBufferAllocator.Suspend RefPool.api
      (DecoderBufferAllocator.UpdateVideoConfig RefPool.api (ref_starboard true false)
        (ref_manager true false) config_4MiB))

/-- The reference platform with a budget table that does not look at the codec:
4 MiB for every codec, `kSbMediaVideoCodecNone` included. -/
def ref_starboard_flat (using_memory_pool on_demand : Bool) : Starboard Nat :=
  { ref_starboard using_memory_pool on_demand with
    SbMediaGetMaxBufferCapacity := fun _ _ _ _ => 4194304 }

/-- A configuration without a codec (`VideoCodec` 0 is converted to
`kSbMediaVideoCodecNone` by the reference platforms). -/
def config_no_codec : VideoDecoderConfig :=
  { codec := 0, width := 0, height := 0, BitsPerChannel := 0 }

/-- The reference platform without a pool and with an exhausted heap:
`SbMemoryAllocateAligned` returns null. -/
def ref_starboard_exhausted : Starboard Nat :=
  { ref_starboard false false with SbMemoryAllocateAligned := fun heap _ _ => (0, heap) }

/-- The reference definition of `GetMaximumMemoryCapacity()`, written from the
words of the claim and not from the code: 0 when no video codec is recorded;
otherwise the live pool's `max_capacity` when pooling is enabled and a pool is
live; otherwise the platform budget of the recorded codec, width, height and
bits per pixel (as a `std::size_t`). -/
def GetMaximumMemoryCapacity_reference {P H : Type} (A : BidirectionalFitReuseAllocator P)
    (sb : Starboard H) (m : DecoderBufferAllocator P H) : Nat :=
  match m.video_codec_, m.using_memory_pool_, m.reuse_allocator_ with
  | SbMediaVideoCodec.kSbMediaVideoCodecNone, _, _ => 0
  | SbMediaVideoCodec.codec _, true, some pool => A.max_capacity pool
  | SbMediaVideoCodec.codec id, _, _ =>
    to_size_t sb.size_t_bits
      (sb.SbMediaGetMaxBufferCapacity (SbMediaVideoCodec.codec id) m.resolution_width_
        m.resolution_height_ m.bits_per_pixel_)

/-- The on-demand reference Manager with 2 MiB live (3 MiB reserved) after
`UpdateVideoConfig(config_512KiB)`: the capacity is above the ceiling. -/
def ref_on_demand_over : DecoderBufferAllocator RefPool Nat :=
  DecoderBufferAllocator.UpdateVideoConfig RefPool.api (ref_starboard true true)
    (DecoderBufferAllocator.Allocate RefPool.api (ref_starboard true true)
      (ref_manager true true) (2 * MiB) 16 0).2 config_512KiB

/-- The pool of `ref_on_demand_over`. -/
def ref_on_demand_over_pool : RefPool :=
  { live := [(16, 2 * MiB)], free_bytes := MiB, max_capacity_ := 512 * 1024,
    allocation_unit := MiB, next := 16 + 2 * MiB }

end media
end cobalt

/-! ## Lemmas on the embedding -/

namespace cobalt
namespace media
namespace DecoderBufferAllocator

variable {P H : Type}

theorem UpdateAllocationRecord_fst (A : BidirectionalFitReuseAllocator P) (sb : Starboard H)
    (m : DecoderBufferAllocator P H) (p : P) :
    (UpdateAllocationRecord A sb m p).1 = !A.CapacityExceeded p := by
  unfold UpdateAllocationRecord
  cases A.CapacityExceeded p <;> simp

/-- In pooled mode `Allocate` is the placement on `placement_pool` followed by
the capacity check. -/
theorem Allocate_pooled (A : BidirectionalFitReuseAllocator P) (sb : Starboard H)
    (m : DecoderBufferAllocator P H) (size alignment : Nat) (context : Int)
    (hpool : m.using_memory_pool_ = true) :
    Allocate A sb m size alignment context =
      if (A.Allocate (placement_pool A sb m) size alignment).1 = 0 then
        ([], { m with
                reuse_allocator_ := some (A.Allocate (placement_pool A sb m) size alignment).2 })
      else if A.CapacityExceeded (A.Allocate (placement_pool A sb m) size alignment).2 then
        ([], { m with
                reuse_allocator_ :=
                  some (A.Free (A.Allocate (placement_pool A sb m) size alignment).2
                    (A.Allocate (placement_pool A sb m) size alignment).1)
                allocation_record :=
                  (UpdateAllocationRecord A sb m
                    (A.Allocate (placement_pool A sb m) size alignment).2).2 })
      else
        ([((A.Allocate (placement_pool A sb m) size alignment).1, size)],
          { m with
            reuse_allocator_ := some (A.Allocate (placement_pool A sb m) size alignment).2
            allocation_record :=
              (UpdateAllocationRecord A sb m
                (A.Allocate (placement_pool A sb m) size alignment).2).2 }) := by
  cases hq : m.reuse_allocator_ with
  | some q =>
    have hpp : placement_pool A sb m = q := by simp [placement_pool, hq]
    simp only [Allocate, hpool, hq, hpp, UpdateAllocationRecord_fst]
    by_cases h0 : (A.Allocate q size alignment).1 = 0
    · simp [h0]
    · cases hx : A.CapacityExceeded (A.Allocate q size alignment).2 <;> simp [h0, hx]
  | none =>
    have hpp : placement_pool A sb m =
        A.create (to_size_t sb.size_t_bits m.initial_capacity_) kSmallAllocationThreshold
          (to_size_t sb.size_t_bits m.allocation_unit_)
          (to_size_t sb.size_t_bits
            (if m.video_codec_ ≠ SbMediaVideoCodec.kSbMediaVideoCodecNone then
              sb.SbMediaGetMaxBufferCapacity m.video_codec_ m.resolution_width_
                m.resolution_height_ m.bits_per_pixel_
             else 0)) := by
      simp [placement_pool, hq]
    rw [hpp]
    simp only [Allocate, hpool, hq, CreateReuseAllocator, UpdateAllocationRecord_fst]
    generalize A.create (to_size_t sb.size_t_bits m.initial_capacity_) kSmallAllocationThreshold
          (to_size_t sb.size_t_bits m.allocation_unit_)
          (to_size_t sb.size_t_bits
            (if m.video_codec_ ≠ SbMediaVideoCodec.kSbMediaVideoCodecNone then
              sb.SbMediaGetMaxBufferCapacity m.video_codec_ m.resolution_width_
                m.resolution_height_ m.bits_per_pixel_
             else 0)) = q
    by_cases h0 : (A.Allocate q size alignment).1 = 0
    · simp [h0]
    · cases hx : A.CapacityExceeded (A.Allocate q size alignment).2 <;>
        simp [h0, hx, UpdateAllocationRecord]

/-- Freeing the buffers of a record one after the other leaves the capacity of
a pool alone when a single `Free` does. -/
theorem foldl_Free_GetCapacity (A : BidirectionalFitReuseAllocator P)
    (hcap : ∀ q b, A.GetCapacity (A.Free q b) = A.GetCapacity q)
    (allocations : Allocations) (p : P) :
    A.GetCapacity (allocations.foldl (fun q b => A.Free q b.1) p) = A.GetCapacity p := by
  induction allocations generalizing p with
  | nil => rfl
  | cons b bs ih =>
    simp only [List.foldl_cons]
    rw [ih, hcap]

/-- A non-negative `int` that fits `std::size_t` keeps its value in the
conversion. -/
theorem to_size_t_of_nonneg (bits : Nat) (i : Int) (h0 : 0 ≤ i) (h1 : i < (2 : Int) ^ bits) :
    ((to_size_t bits i : Nat) : Int) = i := by
  unfold to_size_t
  rw [Int.emod_eq_of_lt h0 h1]
  exact Int.toNat_of_nonneg h0

/-- `UpdateVideoConfig` on a live pool, in pooled mode. -/
theorem UpdateVideoConfig_live (A : BidirectionalFitReuseAllocator P) (sb : Starboard H)
    (m : DecoderBufferAllocator P H) (p : P) (config : VideoDecoderConfig)
    (hpool : m.using_memory_pool_ = true) (hlive : m.reuse_allocator_ = some p) :
    UpdateVideoConfig A sb m config =
      { m with
        video_codec_ := sb.MediaVideoCodecToSbMediaVideoCodec config.codec
        resolution_width_ := config.width
        resolution_height_ := config.height
        bits_per_pixel_ := config.BitsPerChannel
        reuse_allocator_ := some (A.IncreaseMaxCapacityIfNecessary p
          (to_size_t sb.size_t_bits
            (sb.SbMediaGetMaxBufferCapacity (sb.MediaVideoCodecToSbMediaVideoCodec config.codec)
              config.width config.height config.BitsPerChannel))) } := by
  simp [UpdateVideoConfig, hpool, hlive]

/-- Adding `s` and then subtracting `s`, both modulo `M`, gives back a counter
below `M`. -/
theorem fetch_add_fetch_sub (M c s : Nat) (hc : c < M) :
    ((c + s) % M + (M - s % M)) % M = c := by
  have hM : 0 < M := Nat.lt_of_le_of_lt (Nat.zero_le _) hc
  have hs : s % M < M := Nat.mod_lt _ hM
  have h1 : (c + s) % M = (c + s % M) % M := by
    rw [Nat.add_mod, Nat.mod_eq_of_lt hc]
  rw [h1]
  by_cases hlt : c + s % M < M
  · rw [Nat.mod_eq_of_lt hlt]
    have h2 : c + s % M + (M - s % M) = c + M := by omega
    rw [h2, Nat.add_mod_right, Nat.mod_eq_of_lt hc]
  · have h3 : (c + s % M) % M = c + s % M - M := by
      rw [Nat.mod_eq_sub_mod (by omega)]
      exact Nat.mod_eq_of_lt (by omega)
    rw [h3]
    have h4 : c + s % M - M + (M - s % M) = c := by omega
    rw [h4, Nat.mod_eq_of_lt hc]

/-- In pooled mode `GetAllocatedMemory()` is the total of the pool on which
`Allocate` would place, a new pool having nothing allocated. -/
theorem GetAllocatedMemory_placement_pool (A : BidirectionalFitReuseAllocator P)
    (sb : Starboard H) (m : DecoderBufferAllocator P H)
    (hpool : m.using_memory_pool_ = true)
    (hfresh : ∀ i t u c, A.GetAllocated (A.create i t u c) = 0) :
    GetAllocatedMemory A m = A.GetAllocated (placement_pool A sb m) := by
  cases hq : m.reuse_allocator_ with
  | some q => simp [GetAllocatedMemory, hpool, placement_pool, hq]
  | none => simp [GetAllocatedMemory, hpool, placement_pool, hq, hfresh]

/-- `Free` in pooled mode with a live pool. -/
theorem Free_live (A : BidirectionalFitReuseAllocator P) (sb : Starboard H)
    (m : DecoderBufferAllocator P H) (p : P) (allocations : Allocations)
    (hpool : m.using_memory_pool_ = true) (hlive : m.reuse_allocator_ = some p) :
    Free A sb m allocations =
      some { m with
        reuse_allocator_ :=
          if m.is_memory_pool_allocated_on_demand_ = true ∧
              A.GetAllocated (allocations.foldl (fun q b => A.Free q b.1) p) = 0
          then none else some (allocations.foldl (fun q b => A.Free q b.1) p) } := by
  simp only [Free, hpool, hlive]
  cases hod : m.is_memory_pool_allocated_on_demand_ with
  | false => simp
  | true =>
    by_cases hz : A.GetAllocated (allocations.foldl (fun q b => A.Free q b.1) p) = 0
    · simp [hz]
    · simp [hz]

/-- One `fetch_sub(b)` modulo `M` takes `b` off the counter, modulo `M`. -/
theorem fetch_sub_mod (M c b : Nat) (hM : 0 < M) :
    ((c + (M - b % M)) % M + b) % M = c % M := by
  have h1 : b % M < M := Nat.mod_lt _ hM
  have h2 : M * (b / M) + b % M = b := Nat.div_add_mod b M
  rw [Nat.add_mod, Nat.mod_mod, ← Nat.add_mod]
  have h3 : c + (M - b % M) + b = c + M * (b / M + 1) := by
    rw [Nat.mul_add, Nat.mul_one]
    generalize b % M = r at h1 h2 ⊢
    generalize M * (b / M) = k at h2 ⊢
    omega
  rw [h3, Nat.add_mul_mod_self_left]

/-- The loop of `Free` without a pool (lines 157-160): it takes the sizes of the
record off the byte counter, modulo the word size, and touches neither the mode
nor the pool. -/
theorem Free_loop_without_pool (sb : Starboard H) (allocations : Allocations)
    (m : DecoderBufferAllocator P H) :
    (allocations.foldl
      (fun s b =>
        { s with
          sbmemory_bytes_used_ :=
            (s.sbmemory_bytes_used_ + (2 ^ sb.size_t_bits - b.2 % 2 ^ sb.size_t_bits))
              % 2 ^ sb.size_t_bits
          sbmemory := sb.SbMemoryDeallocateAligned s.sbmemory b.1 })
      m).using_memory_pool_ = m.using_memory_pool_ ∧
    (allocations.foldl
      (fun s b =>
        { s with
          sbmemory_bytes_used_ :=
            (s.sbmemory_bytes_used_ + (2 ^ sb.size_t_bits - b.2 % 2 ^ sb.size_t_bits))
              % 2 ^ sb.size_t_bits
          sbmemory := sb.SbMemoryDeallocateAligned s.sbmemory b.1 })
      m).reuse_allocator_ = m.reuse_allocator_ ∧
    ((allocations.foldl
      (fun s b =>
        { s with
          sbmemory_bytes_used_ :=
            (s.sbmemory_bytes_used_ + (2 ^ sb.size_t_bits - b.2 % 2 ^ sb.size_t_bits))
              % 2 ^ sb.size_t_bits
          sbmemory := sb.SbMemoryDeallocateAligned s.sbmemory b.1 })
      m).sbmemory_bytes_used_ + (allocations.map Prod.snd).sum) % 2 ^ sb.size_t_bits =
      m.sbmemory_bytes_used_ % 2 ^ sb.size_t_bits := by
  induction allocations generalizing m with
  | nil => simp
  | cons b bs ih =>
    simp only [List.foldl_cons, List.map_cons, List.sum_cons]
    obtain ⟨h1, h2, h3⟩ := ih
      { m with
        sbmemory_bytes_used_ :=
          (m.sbmemory_bytes_used_ + (2 ^ sb.size_t_bits - b.2 % 2 ^ sb.size_t_bits))
            % 2 ^ sb.size_t_bits
        sbmemory := sb.SbMemoryDeallocateAligned m.sbmemory b.1 }
    refine ⟨h1, h2, ?_⟩
    rw [← Nat.add_assoc, Nat.add_right_comm, Nat.add_mod, h3, ← Nat.add_mod]
    exact fetch_sub_mod _ _ _ (Nat.pow_pos (by decide))

/-- The loop of `Free` without a pool does not touch the on-demand flag. -/
theorem Free_loop_on_demand (sb : Starboard H) (allocations : Allocations)
    (m : DecoderBufferAllocator P H) :
    (allocations.foldl
      (fun s b =>
        { s with
          sbmemory_bytes_used_ :=
            (s.sbmemory_bytes_used_ + (2 ^ sb.size_t_bits - b.2 % 2 ^ sb.size_t_bits))
              % 2 ^ sb.size_t_bits
          sbmemory := sb.SbMemoryDeallocateAligned s.sbmemory b.1 })
      m).is_memory_pool_allocated_on_demand_ = m.is_memory_pool_allocated_on_demand_ := by
  induction allocations generalizing m with
  | nil => rfl
  | cons b bs ih =>
    simp only [List.foldl_cons]
    rw [ih]

/-- No call changes the two mode flags fixed at construction. -/
theorem step_mode (A : BidirectionalFitReuseAllocator P) (sb : Starboard H)
    (m m1 : DecoderBufferAllocator P H) (c : Call) (h : step A sb m c = some m1) :
    m1.using_memory_pool_ = m.using_memory_pool_ ∧
      m1.is_memory_pool_allocated_on_demand_ = m.is_memory_pool_allocated_on_demand_ := by
  cases c with
  | Allocate size alignment context =>
    simp only [step, Option.some.injEq] at h
    subst h
    cases hu : m.using_memory_pool_ with
    | false => simp [Allocate, hu]
    | true =>
      rw [Allocate_pooled A sb m size alignment context hu]
      by_cases h0 : (A.Allocate (placement_pool A sb m) size alignment).1 = 0
      · simp [h0, hu]
      · cases hx : A.CapacityExceeded (A.Allocate (placement_pool A sb m) size alignment).2 <;>
          simp [h0, hx, hu]
  | Free allocations =>
    simp only [step] at h
    cases hu : m.using_memory_pool_ with
    | false =>
      simp only [Free, hu, Bool.not_false, if_true, Option.some.injEq] at h
      subst h
      exact ⟨by rw [(Free_loop_without_pool sb allocations m).1, hu],
        Free_loop_on_demand sb allocations m⟩
    | true =>
      cases hp : m.reuse_allocator_ with
      | none =>
        simp only [Free, hu, hp] at h
        by_cases hc : (allocations.isEmpty && !m.is_memory_pool_allocated_on_demand_) = true
        · simp only [Bool.not_true, Bool.false_eq_true, if_false, hc, if_true,
            Option.some.injEq] at h
          subst h
          exact ⟨hu, rfl⟩
        · simp [hc] at h
      | some p =>
        rw [Free_live A sb m p allocations hu hp, Option.some.injEq] at h
        subst h
        exact ⟨hu, rfl⟩
  | UpdateVideoConfig config =>
    simp only [step, Option.some.injEq] at h
    subst h
    unfold UpdateVideoConfig
    cases hu : m.using_memory_pool_ <;> cases hp : m.reuse_allocator_ <;> simp [hu]
  | Suspend =>
    simp only [step, Option.some.injEq] at h
    subst h
    unfold Suspend
    split
    · exact ⟨rfl, rfl⟩
    · split
      · split <;> exact ⟨rfl, rfl⟩
      · exact ⟨rfl, rfl⟩
  | Resume =>
    simp only [step, Option.some.injEq] at h
    subst h
    unfold Resume
    split
    · exact ⟨rfl, rfl⟩
    · split <;> exact ⟨rfl, rfl⟩

/-- No sequence of calls changes the two mode flags. -/
theorem run_mode (A : BidirectionalFitReuseAllocator P) (sb : Starboard H)
    (calls : List Call) (m m1 : DecoderBufferAllocator P H) (h : run A sb m calls = some m1) :
    m1.using_memory_pool_ = m.using_memory_pool_ ∧
      m1.is_memory_pool_allocated_on_demand_ = m.is_memory_pool_allocated_on_demand_ := by
  induction calls generalizing m with
  | nil =>
    simp only [run, Option.some.injEq] at h
    subst h
    exact ⟨rfl, rfl⟩
  | cons c cs ih =>
    simp only [run] at h
    cases hs : step A sb m c with
    | none => simp [hs] at h
    | some m2 =>
      simp only [hs] at h
      obtain ⟨h1, h2⟩ := ih m2 h
      obtain ⟨h3, h4⟩ := step_mode A sb m m2 c hs
      exact ⟨h1.trans h3, h2.trans h4⟩

/-- In pooled mode a pool is live after every `Allocate`. -/
theorem Allocate_pool_isSome (A : BidirectionalFitReuseAllocator P) (sb : Starboard H)
    (m : DecoderBufferAllocator P H) (size alignment : Nat) (context : Int)
    (hpool : m.using_memory_pool_ = true) :
    (Allocate A sb m size alignment context).2.reuse_allocator_.isSome = true := by
  rw [Allocate_pooled A sb m size alignment context hpool]
  by_cases h0 : (A.Allocate (placement_pool A sb m) size alignment).1 = 0
  · simp [h0]
  · cases hx : A.CapacityExceeded (A.Allocate (placement_pool A sb m) size alignment).2 <;>
      simp [h0, hx]

/-- `UpdateVideoConfig` neither creates nor destroys a pool. -/
theorem UpdateVideoConfig_isSome (A : BidirectionalFitReuseAllocator P) (sb : Starboard H)
    (m : DecoderBufferAllocator P H) (c : VideoDecoderConfig) :
    (UpdateVideoConfig A sb m c).reuse_allocator_.isSome = m.reuse_allocator_.isSome := by
  unfold UpdateVideoConfig
  cases hu : m.using_memory_pool_ <;> cases hp : m.reuse_allocator_ <;> simp [hp]

/-- A list is a permutation of one of its records followed by the rest. -/
theorem held_perm_cons_erase (r : Allocations) (held : List Allocations) (h : r ∈ held) :
    held.Perm (r :: held.erase r) := by
  induction held with
  | nil => cases h
  | cons b bs ih =>
    by_cases hb : b = r
    · subst hb
      rw [List.erase_cons_head]
    · have hmem : r ∈ bs := by
        rcases List.mem_cons.1 h with h1 | h1
        · exact absurd h1.symm hb
        · exact h1
      rw [List.erase_cons_tail (by simpa using hb)]
      exact (List.Perm.cons b (ih hmem)).trans (List.Perm.swap r b _)

end DecoderBufferAllocator

/-! ### The reference Pool Allocator keeps the contract of section 4.1 -/

namespace RefPool

theorem place_fst_pos (p : RefPool) (size alignment : Nat) :
    (place p size alignment).1 ≠ 0 := by
  simp only [place, round_up]
  split
  · omega
  · rename_i h
    have h1 : 0 < alignment := Nat.pos_of_ne_zero h
    have h2 : alignment ≤ p.next + 1 + alignment - 1 := by omega
    have h3 : 0 < (p.next + 1 + alignment - 1) / alignment := Nat.div_pos h2 h1
    exact Nat.ne_of_gt (Nat.mul_pos h3 h1)

theorem Free_place_live (p : RefPool) (size alignment : Nat) :
    (Free (place p size alignment).2 (place p size alignment).1).live = p.live := by
  simp [Free, place, take_out]

theorem create_GetAllocated (i t u c : Nat) : GetAllocated (create i t u c) = 0 := by
  unfold create
  split <;> simp [GetAllocated]

theorem grow_some (p q : RefPool) (size : Nat) (hg : grow p size = some q) :
    q.live = p.live ∧ q.max_capacity_ = p.max_capacity_ ∧ p.free_bytes ≤ q.free_bytes ∧
      (q.max_capacity_ ≠ 0 → q.GetCapacity ≤ q.max_capacity_) := by
  simp only [grow] at hg
  by_cases hc : p.max_capacity_ = 0 ∨ p.GetCapacity + round_up size p.allocation_unit ≤
      p.max_capacity_
  · rw [if_pos hc] at hg
    cases hg
    refine ⟨rfl, rfl, Nat.le_add_right _ _, ?_⟩
    intro hne
    rcases hc with hc | hc
    · exact absurd hc hne
    · simp only [GetCapacity, GetAllocated] at hc ⊢
      omega
  · rw [if_neg hc] at hg
    cases hg

theorem Free_Allocate_GetAllocated (p : RefPool) (size alignment : Nat)
    (h : (Allocate p size alignment).1 ≠ 0) :
    GetAllocated (Free (Allocate p size alignment).2 (Allocate p size alignment).1) =
      GetAllocated p := by
  by_cases hfit : size ≤ p.free_bytes
  · simp [Allocate, hfit, GetAllocated, Free_place_live]
  · cases hg : grow p size with
    | none => simp [Allocate, hfit, hg] at h
    | some q =>
      have hq := (grow_some p q size hg).1
      simp [Allocate, hfit, hg, GetAllocated, Free_place_live, hq]

theorem Allocate_max_capacity (p : RefPool) (size alignment : Nat) :
    (Allocate p size alignment).2.max_capacity_ = p.max_capacity_ := by
  by_cases hfit : size ≤ p.free_bytes
  · simp [Allocate, hfit, place]
  · cases hg : grow p size with
    | none => simp [Allocate, hfit, hg]
    | some q => simp [Allocate, hfit, hg, place, (grow_some p q size hg).2.1]

theorem Allocate_counts (p : RefPool) (size alignment : Nat)
    (h : (Allocate p size alignment).1 ≠ 0) :
    GetAllocated p + size ≤ GetAllocated (Allocate p size alignment).2 := by
  by_cases hfit : size ≤ p.free_bytes
  · simp [Allocate, hfit, place, GetAllocated]
    omega
  · cases hg : grow p size with
    | none => simp [Allocate, hfit, hg] at h
    | some q =>
      simp [Allocate, hfit, hg, place, GetAllocated, (grow_some p q size hg).1]
      omega

theorem GetAllocated_le_GetCapacity (p : RefPool) : GetAllocated p ≤ GetCapacity p :=
  Nat.le_add_right _ _

theorem CapacityExceeded_iff (p : RefPool) :
    CapacityExceeded p = true ↔ (p.max_capacity_ ≠ 0 ∧ p.max_capacity_ < GetCapacity p) := by
  simp [CapacityExceeded]

theorem Free_GetCapacity (p : RefPool) (pointer : Nat) :
    GetCapacity (Free p pointer) = GetCapacity p := by
  have key : ∀ (l : List (Nat × Nat)) (size : Nat) (rest : List (Nat × Nat)),
      take_out pointer l = some (size, rest) →
      (l.map Prod.snd).sum = (rest.map Prod.snd).sum + size := by
    intro l
    induction l with
    | nil => intro size rest h; simp [take_out] at h
    | cons b bs ih =>
      intro size rest h
      simp only [take_out] at h
      by_cases hb : b.1 = pointer
      · simp only [hb, if_true, Option.some.injEq, Prod.mk.injEq] at h
        obtain ⟨h1, h2⟩ := h
        subst h1 h2
        simp [Nat.add_comm]
      · simp only [hb, if_false] at h
        cases ht : take_out pointer bs with
        | none => simp [ht] at h
        | some r =>
          obtain ⟨size1, rest1⟩ := r
          simp only [ht, Option.some.injEq, Prod.mk.injEq] at h
          obtain ⟨h1, h2⟩ := h
          subst h1 h2
          have := ih size1 rest1 ht
          simp only [List.map_cons, List.sum_cons]
          omega
  unfold Free
  cases ht : take_out pointer p.live with
  | none => rfl
  | some r =>
    obtain ⟨size, rest⟩ := r
    have := key p.live size rest ht
    simp only [GetCapacity, GetAllocated]
    omega

theorem place_GetCapacity (p : RefPool) (size alignment : Nat) (h : size ≤ p.free_bytes) :
    GetCapacity (place p size alignment).2 = GetCapacity p := by
  simp only [place, GetCapacity, GetAllocated, List.map_cons, List.sum_cons]
  omega

theorem Allocate_GetCapacity_over (p : RefPool) (size alignment : Nat)
    (hne : p.max_capacity_ ≠ 0) (hover : p.max_capacity_ < GetCapacity p) :
    GetCapacity (Allocate p size alignment).2 = GetCapacity p := by
  by_cases hfit : size ≤ p.free_bytes
  · simp only [Allocate, hfit, if_true]
    exact place_GetCapacity p size alignment hfit
  · have hg : grow p size = none := by
      simp only [grow]
      rw [if_neg]
      intro h
      rcases h with h | h
      · exact hne h
      · omega
    simp [Allocate, hfit, hg]

theorem Allocate_null_GetAllocated (p : RefPool) (size alignment : Nat)
    (h : (Allocate p size alignment).1 = 0) :
    GetAllocated (Allocate p size alignment).2 = GetAllocated p := by
  by_cases hfit : size ≤ p.free_bytes
  · simp only [Allocate, hfit, if_true] at h
    exact absurd h (place_fst_pos p size alignment)
  · cases hg : grow p size with
    | none => simp [Allocate, hfit, hg]
    | some q =>
      simp only [Allocate, hfit, hg, if_false] at h
      exact absurd h (place_fst_pos q size alignment)

theorem Free_max_capacity (p : RefPool) (pointer : Nat) :
    (Free p pointer).max_capacity_ = p.max_capacity_ := by
  unfold Free
  cases take_out pointer p.live with
  | none => rfl
  | some r => rfl

theorem take_out_some (pointer : Nat) (l : List (Nat × Nat)) (size : Nat)
    (rest : List (Nat × Nat)) (h : take_out pointer l = some (size, rest)) :
    rest.map Prod.fst = (l.map Prod.fst).erase pointer ∧ ∀ b ∈ rest, b ∈ l := by
  induction l generalizing size rest with
  | nil => simp [take_out] at h
  | cons b bs ih =>
    simp only [take_out] at h
    by_cases hb : b.1 = pointer
    · simp only [hb, if_true, Option.some.injEq, Prod.mk.injEq] at h
      obtain ⟨_, h2⟩ := h
      subst h2
      refine ⟨?_, fun c hc => List.mem_cons_of_mem _ hc⟩
      simp [hb]
    · simp only [hb, if_false] at h
      cases ht : take_out pointer bs with
      | none => simp [ht] at h
      | some r =>
        obtain ⟨size1, rest1⟩ := r
        simp only [ht, Option.some.injEq, Prod.mk.injEq] at h
        obtain ⟨_, h2⟩ := h
        subst h2
        obtain ⟨ih1, ih2⟩ := ih size1 rest1 ht
        refine ⟨?_, ?_⟩
        · simp only [List.map_cons]
          rw [List.erase_cons_tail (by simpa using hb), ih1]
        · intro c hc
          rcases List.mem_cons.1 hc with hc | hc
          · exact hc ▸ List.mem_cons_self _ _
          · exact List.mem_cons_of_mem _ (ih2 c hc)

theorem take_out_none (pointer : Nat) (l : List (Nat × Nat))
    (h : take_out pointer l = none) : pointer ∉ l.map Prod.fst := by
  induction l with
  | nil => simp
  | cons b bs ih =>
    simp only [take_out] at h
    by_cases hb : b.1 = pointer
    · simp [hb] at h
    · simp only [hb, if_false] at h
      cases ht : take_out pointer bs with
      | none =>
        have := ih ht
        simp only [List.map_cons, List.mem_cons, not_or]
        exact ⟨fun e => hb e.symm, this⟩
      | some r =>
        obtain ⟨size1, rest1⟩ := r
        simp [ht] at h

theorem Allocate_live (p : RefPool) (size alignment : Nat) :
    ((Allocate p size alignment).1 ≠ 0 →
      (Allocate p size alignment).2.live = ((Allocate p size alignment).1, size) :: p.live) ∧
    ((Allocate p size alignment).1 = 0 → (Allocate p size alignment).2 = p) := by
  by_cases hfit : size ≤ p.free_bytes
  · simp only [Allocate, hfit, if_true]
    exact ⟨fun _ => rfl, fun h => absurd h (place_fst_pos p size alignment)⟩
  · cases hg : grow p size with
    | none => simp [Allocate, hfit, hg]
    | some q =>
      simp only [Allocate, hfit, hg, if_false]
      refine ⟨fun _ => ?_, fun h => absurd h (place_fst_pos q size alignment)⟩
      simp [place, (grow_some p q size hg).1]

/-- The reference Pool Allocator with a minimum block size keeps track of its
live pointers. -/
theorem api_min_block_tracks :
    DecoderBufferAllocator.PoolTracks api_min_block all_counted live_pointers where
  create_inv := by
    intro i t u c b hb
    have : (create i t u c).live = [] := by
      unfold create
      split <;> rfl
    have hb2 : b ∈ (create i t u c).live := hb
    rw [this] at hb2
    cases hb2
  create_live := by
    intro i t u c
    show live_pointers (create i t u c) = []
    unfold live_pointers create
    split <;> rfl
  allocate_inv := by
    intro p s a hinv
    show all_counted (Allocate p (max s 1) a).2
    by_cases h0 : (Allocate p (max s 1) a).1 = 0
    · rw [(Allocate_live p (max s 1) a).2 h0]
      exact hinv
    · intro b hb
      rw [(Allocate_live p (max s 1) a).1 h0] at hb
      rcases List.mem_cons.1 hb with hb | hb
      · subst hb
        exact Nat.lt_of_lt_of_le Nat.one_pos (Nat.le_max_right s 1)
      · exact hinv b hb
  allocate_live := by
    intro p s a _ h0
    show live_pointers (Allocate p (max s 1) a).2 =
      (Allocate p (max s 1) a).1 :: live_pointers p
    unfold live_pointers
    rw [(Allocate_live p (max s 1) a).1 h0]
    rfl
  allocate_null := by
    intro p s a _ h0
    show live_pointers (Allocate p (max s 1) a).2 = live_pointers p
    rw [(Allocate_live p (max s 1) a).2 h0]
  free_inv := by
    intro p q hinv _
    show all_counted (Free p q)
    unfold Free
    cases ht : take_out q p.live with
    | none => exact hinv
    | some r =>
      obtain ⟨size, rest⟩ := r
      intro b hb
      exact hinv b ((take_out_some q p.live size rest ht).2 b hb)
  free_live := by
    intro p q _ hq
    show live_pointers (Free p q) = (live_pointers p).erase q
    unfold Free live_pointers
    cases ht : take_out q p.live with
    | none => exact absurd hq (take_out_none q p.live ht)
    | some r =>
      obtain ⟨size, rest⟩ := r
      exact (take_out_some q p.live size rest ht).1
  increase_inv := by
    intro p n hinv
    exact hinv
  increase_live := by
    intro p n
    rfl
  idle_live := by
    intro p hinv hz
    show live_pointers p = []
    have hz2 : (p.live.map Prod.snd).sum = 0 := hz
    unfold live_pointers
    cases hl : p.live with
    | nil => rfl
    | cons b bs =>
      have hb := hinv b (by rw [hl]; exact List.mem_cons_self _ _)
      rw [hl] at hz2
      simp only [List.map_cons, List.sum_cons] at hz2
      omega

end RefPool

/-! ## The claims -/

namespace DecoderBufferAllocator

variable {P H : Type}

/-- C1. In pooled mode, for every size and alignment: if the placement on the
Pool Allocator returns a non-null pointer and `CapacityExceeded()` is true
afterwards, `Allocate` frees that pointer back to the Pool Allocator and returns
an empty record, the pool stays live, and `GetAllocatedMemory()` after the call
equals its value before the call. The last part uses the contract of the Pool
Allocator: freeing a pointer just placed restores `GetAllocated()`, and a fresh
pool has nothing allocated. -/
theorem C1_capacity_exceeded_releases (A : BidirectionalFitReuseAllocator P) (sb : Starboard H)
    (m : DecoderBufferAllocator P H) (size alignment : Nat) (context : Int)
    (hpool : m.using_memory_pool_ = true)
    (hfree : ∀ q s a, (A.Allocate q s a).1 ≠ 0 →
      A.GetAllocated (A.Free (A.Allocate q s a).2 (A.Allocate q s a).1) = A.GetAllocated q)
    (hfresh : ∀ i t u c, A.GetAllocated (A.create i t u c) = 0)
    (hp : (A.Allocate (placement_pool A sb m) size alignment).1 ≠ 0)
    (hx : A.CapacityExceeded (A.Allocate (placement_pool A sb m) size alignment).2 = true) :
    (Allocate A sb m size alignment context).1 = [] ∧
    (Allocate A sb m size alignment context).2.reuse_allocator_ =
      some (A.Free (A.Allocate (placement_pool A sb m) size alignment).2
        (A.Allocate (placement_pool A sb m) size alignment).1) ∧
    GetAllocatedMemory A (Allocate A sb m size alignment context).2 = GetAllocatedMemory A m := by
  rw [Allocate_pooled A sb m size alignment context hpool]
  simp only [hp, hx, if_true, if_false]
  refine ⟨trivial, trivial, ?_⟩
  simp only [GetAllocatedMemory, hpool]
  rw [hfree _ _ _ hp]
  cases hq : m.reuse_allocator_ with
  | some q => simp [placement_pool, hq]
  | none => simp [placement_pool, hq, hfresh]

/-- Witness of C1: on the eager reference Manager whose 1 MiB pool got a ceiling
of 512 KiB, `Allocate(4096, 16)` is placed, found over the ceiling, freed again
and denied. -/
theorem C1_capacity_exceeded_releases_witness :
    ref_over_ceiling.using_memory_pool_ = true ∧
    (RefPool.api.Allocate (placement_pool RefPool.api (ref_starboard true false)
      ref_over_ceiling) 4096 16).1 ≠ 0 ∧
    RefPool.api.CapacityExceeded (RefPool.api.Allocate (placement_pool RefPool.api
      (ref_starboard true false) ref_over_ceiling) 4096 16).2 = true ∧
    (Allocate RefPool.api (ref_starboard true false) ref_over_ceiling 4096 16 7).1 = [] ∧
    (Allocate RefPool.api (ref_starboard true false) ref_over_ceiling 4096 16 7).2.reuse_allocator_ =
      some (RefPool.api.Free
        (RefPool.api.Allocate (placement_pool RefPool.api (ref_starboard true false)
          ref_over_ceiling) 4096 16).2
        (RefPool.api.Allocate (placement_pool RefPool.api (ref_starboard true false)
          ref_over_ceiling) 4096 16).1) ∧
    GetAllocatedMemory RefPool.api
        (Allocate RefPool.api (ref_starboard true false) ref_over_ceiling 4096 16 7).2 =
      GetAllocatedMemory RefPool.api ref_over_ceiling :=
  ⟨by decide, by decide, by decide,
    C1_capacity_exceeded_releases RefPool.api (ref_starboard true false) ref_over_ceiling
      4096 16 7 (by decide) RefPool.Free_Allocate_GetAllocated RefPool.create_GetAllocated
      (by decide) (by decide)⟩

/-- C2. In pooled mode `Allocate(size, alignment, context)` returns a non-empty
record if and only if the placement on the Pool Allocator returns a non-null
pointer `p` and `CapacityExceeded()` is false afterwards; the record is then
the single buffer `(p, size)`; when the placement returns null the record is
empty. Neither the record nor the pool left behind depends on `context` or on
the high-water marks kept by `UpdateAllocationRecord`. -/
theorem C2_allocate_result (A : BidirectionalFitReuseAllocator P) (sb : Starboard H)
    (m : DecoderBufferAllocator P H) (size alignment : Nat) (context : Int)
    (hpool : m.using_memory_pool_ = true) :
    ((Allocate A sb m size alignment context).1 ≠ [] ↔
      ((A.Allocate (placement_pool A sb m) size alignment).1 ≠ 0 ∧
        A.CapacityExceeded (A.Allocate (placement_pool A sb m) size alignment).2 = false)) ∧
    (((A.Allocate (placement_pool A sb m) size alignment).1 ≠ 0 ∧
        A.CapacityExceeded (A.Allocate (placement_pool A sb m) size alignment).2 = false) →
      (Allocate A sb m size alignment context).1 =
        [((A.Allocate (placement_pool A sb m) size alignment).1, size)]) ∧
    ((A.Allocate (placement_pool A sb m) size alignment).1 = 0 →
      (Allocate A sb m size alignment context).1 = []) ∧
    (∀ (context1 : Int) (record1 : Option (Nat × Nat)),
      (Allocate A sb { m with allocation_record := record1 } size alignment context1).1 =
          (Allocate A sb m size alignment context).1 ∧
        (Allocate A sb { m with allocation_record := record1 } size alignment
            context1).2.reuse_allocator_ =
          (Allocate A sb m size alignment context).2.reuse_allocator_) := by
  have hind : ∀ (context1 : Int) (record1 : Option (Nat × Nat)),
      (Allocate A sb { m with allocation_record := record1 } size alignment context1).1 =
          (Allocate A sb m size alignment context).1 ∧
        (Allocate A sb { m with allocation_record := record1 } size alignment
            context1).2.reuse_allocator_ =
          (Allocate A sb m size alignment context).2.reuse_allocator_ := by
    intro context1 record1
    have hpp : placement_pool A sb { m with allocation_record := record1 } =
        placement_pool A sb m := rfl
    rw [Allocate_pooled A sb m size alignment context hpool,
      Allocate_pooled A sb { m with allocation_record := record1 } size alignment context1 hpool,
      hpp]
    by_cases h0 : (A.Allocate (placement_pool A sb m) size alignment).1 = 0
    · simp [h0]
    · cases hx : A.CapacityExceeded (A.Allocate (placement_pool A sb m) size alignment).2 <;>
        simp [h0, hx]
  refine ⟨?_, ?_, ?_, hind⟩
  all_goals rw [Allocate_pooled A sb m size alignment context hpool]
  · by_cases h0 : (A.Allocate (placement_pool A sb m) size alignment).1 = 0
    · simp [h0]
    · cases hx : A.CapacityExceeded (A.Allocate (placement_pool A sb m) size alignment).2 <;>
        simp [h0, hx]
  · rintro ⟨h0, hx⟩
    simp [h0, hx]
  · intro h0
    simp [h0]

/-- Witness of C2: the on-demand reference Manager, asked for 2 MiB before any
configuration is known, returns the one-buffer record. -/
theorem C2_allocate_result_witness :
    (ref_manager true true).using_memory_pool_ = true ∧
    (Allocate RefPool.api (ref_starboard true true) (ref_manager true true)
      (2 * MiB) 16 0).1 = [(16, 2 * MiB)] :=
  ⟨by decide, by
    have h := C2_allocate_result RefPool.api (ref_starboard true true) (ref_manager true true)
      (2 * MiB) 16 0 (by decide)
    exact (h.2.1 ⟨by decide, by decide⟩).trans (by decide)⟩

/-- C3. In pooled mode with a live pool whose `max_capacity` is non-zero, and
for a Pool Allocator that keeps `allocated <= capacity`, counts at least `size`
bytes for a successful placement, leaves the ceiling alone in `Allocate` and
reports `CapacityExceeded()` exactly when a non-zero ceiling is below the
capacity: whenever `Allocate` returns a non-empty record the pool's capacity and
hence `GetAllocatedMemory()` are at most `max_capacity` on return; and a request
that would take the live total over the ceiling returns an empty record (so
with a ceiling of 4 MiB and 2 MiB live, `Allocate(3 MiB, 16)` is denied). -/
theorem C3_successful_allocate_within_ceiling (A : BidirectionalFitReuseAllocator P)
    (sb : Starboard H) (m : DecoderBufferAllocator P H) (p : P) (size alignment : Nat)
    (context : Int)
    (hpool : m.using_memory_pool_ = true)
    (hlive : m.reuse_allocator_ = some p)
    (hceiling : A.max_capacity p ≠ 0)
    (hspec : ∀ q, A.CapacityExceeded q = true ↔
      (A.max_capacity q ≠ 0 ∧ A.max_capacity q < A.GetCapacity q))
    (hinv : ∀ q, A.GetAllocated q ≤ A.GetCapacity q)
    (hcount : ∀ q s a, (A.Allocate q s a).1 ≠ 0 →
      A.GetAllocated q + s ≤ A.GetAllocated (A.Allocate q s a).2)
    (hmax : ∀ q s a, A.max_capacity (A.Allocate q s a).2 = A.max_capacity q) :
    ((Allocate A sb m size alignment context).1 ≠ [] →
      ∃ q, (Allocate A sb m size alignment context).2.reuse_allocator_ = some q ∧
        A.max_capacity q = A.max_capacity p ∧
        A.GetCapacity q ≤ A.max_capacity p ∧
        GetCurrentMemoryCapacity A (Allocate A sb m size alignment context).2 ≤
          A.max_capacity p ∧
        GetAllocatedMemory A (Allocate A sb m size alignment context).2 ≤ A.max_capacity p) ∧
    (A.max_capacity p < A.GetAllocated p + size →
      (Allocate A sb m size alignment context).1 = []) := by
  have hpp : placement_pool A sb m = p := by simp [placement_pool, hlive]
  have key : (Allocate A sb m size alignment context).1 ≠ [] →
      ∃ q, (Allocate A sb m size alignment context).2.reuse_allocator_ = some q ∧
        A.max_capacity q = A.max_capacity p ∧
        A.GetCapacity q ≤ A.max_capacity p ∧
        GetCurrentMemoryCapacity A (Allocate A sb m size alignment context).2 ≤
          A.max_capacity p ∧
        GetAllocatedMemory A (Allocate A sb m size alignment context).2 ≤ A.max_capacity p ∧
        A.GetAllocated p + size ≤ A.GetAllocated q := by
    rw [Allocate_pooled A sb m size alignment context hpool, hpp]
    by_cases h0 : (A.Allocate p size alignment).1 = 0
    · simp [h0]
    · cases hx : A.CapacityExceeded (A.Allocate p size alignment).2 with
      | true => simp [h0, hx]
      | false =>
        intro _
        have hm := hmax p size alignment
        have hle : A.GetCapacity (A.Allocate p size alignment).2 ≤ A.max_capacity p := by
          by_contra hcon
          have : A.CapacityExceeded (A.Allocate p size alignment).2 = true :=
            (hspec _).2 ⟨by rw [hm]; exact hceiling, by rw [hm]; omega⟩
          rw [hx] at this
          cases this
        have hal := hinv (A.Allocate p size alignment).2
        refine ⟨(A.Allocate p size alignment).2, ?_, hm, hle, ?_, ?_, hcount p size alignment h0⟩
        · simp [h0]
        · simp [h0, GetCurrentMemoryCapacity, hpool, hle]
        · simp only [h0, if_false, Bool.false_eq_true, GetAllocatedMemory, hpool]
          exact Nat.le_trans hal hle
  refine ⟨fun h => ?_, fun hover => ?_⟩
  · obtain ⟨q, h1, h2, h3, h4, h5, _⟩ := key h
    exact ⟨q, h1, h2, h3, h4, h5⟩
  · by_contra hne
    obtain ⟨q, _, _, h3, _, _, h6⟩ := key hne
    have := hinv q
    omega

/-- Witness of C3: scenario 1 of the spec. The pool holds 2 MiB under a ceiling
of 4 MiB set by `UpdateVideoConfig`; `Allocate(3 MiB, 16)` returns an empty
record. -/
theorem C3_successful_allocate_within_ceiling_witness :
    ref_scenario1.using_memory_pool_ = true ∧
    ref_scenario1.reuse_allocator_ = some ref_scenario1_pool ∧
    RefPool.api.max_capacity ref_scenario1_pool = 4 * MiB ∧
    RefPool.api.GetAllocated ref_scenario1_pool = 2 * MiB ∧
    (Allocate RefPool.api (ref_starboard true true) ref_scenario1 (3 * MiB) 16 0).1 = [] :=
  ⟨by decide, by decide, by decide, by decide,
    (C3_successful_allocate_within_ceiling RefPool.api (ref_starboard true true) ref_scenario1
      ref_scenario1_pool (3 * MiB) 16 0 (by decide) (by decide) (by decide)
      RefPool.CapacityExceeded_iff RefPool.GetAllocated_le_GetCapacity RefPool.Allocate_counts
      RefPool.Allocate_max_capacity).2 (by decide)⟩

/-- C4, counterexample. On the eager reference Manager the single call
`UpdateVideoConfig(config_512KiB)` returns with a live pool whose ceiling is
512 KiB, non-zero, and whose capacity is 1 MiB. -/
theorem C4_capacity_bound_counterexample :
    run RefPool.api (ref_starboard true false) (ref_manager true false)
      [Call.UpdateVideoConfig config_512KiB] = some ref_over_ceiling ∧
    ref_over_ceiling.using_memory_pool_ = true ∧
    ref_over_ceiling.reuse_allocator_.map RefPool.api.max_capacity = some (512 * 1024) ∧
    GetCurrentMemoryCapacity RefPool.api ref_over_ceiling = 1024 * 1024 ∧
    ¬ (GetCurrentMemoryCapacity RefPool.api ref_over_ceiling ≤ 512 * 1024) :=
  ⟨rfl, by decide, by decide, by decide, by decide⟩

/-- C4, amended. In every state of a pooled Manager, hence after every sequence
of calls, an `Allocate` that returns a non-empty record returns with a live pool
and, if that pool's `max_capacity` is non-zero, with
`GetCurrentMemoryCapacity()` at most that `max_capacity` (`CapacityExceeded()`
being true exactly when a non-zero ceiling is below the capacity). -/
theorem C4_capacity_bound_after_successful_allocate (A : BidirectionalFitReuseAllocator P)
    (sb : Starboard H) (m : DecoderBufferAllocator P H)
    (size alignment : Nat) (context : Int)
    (hpool : m.using_memory_pool_ = true)
    (hspec : ∀ q, A.CapacityExceeded q = true ↔
      (A.max_capacity q ≠ 0 ∧ A.max_capacity q < A.GetCapacity q))
    (hne : (Allocate A sb m size alignment context).1 ≠ []) :
    ∃ p, (Allocate A sb m size alignment context).2.reuse_allocator_ = some p ∧
      (A.max_capacity p ≠ 0 →
        GetCurrentMemoryCapacity A (Allocate A sb m size alignment context).2 ≤
          A.max_capacity p) := by
  rw [Allocate_pooled A sb m size alignment context hpool] at hne ⊢
  by_cases h0 : (A.Allocate (placement_pool A sb m) size alignment).1 = 0
  · simp [h0] at hne
  · cases hx : A.CapacityExceeded (A.Allocate (placement_pool A sb m) size alignment).2 with
    | true => simp [h0, hx] at hne
    | false =>
      refine ⟨(A.Allocate (placement_pool A sb m) size alignment).2, by simp [h0], ?_⟩
      intro hmax
      simp only [h0, if_false, Bool.false_eq_true, GetCurrentMemoryCapacity, hpool]
      by_contra hcon
      have : A.CapacityExceeded (A.Allocate (placement_pool A sb m) size alignment).2 = true :=
        (hspec _).2 ⟨hmax, by simpa using hcon⟩
      rw [hx] at this
      cases this

/-- Witness of C4 (amended): in scenario 1 of the spec, after the ceiling of
4 MiB is known, `Allocate(512 KiB, 16)` succeeds and leaves 3 MiB reserved. -/
theorem C4_capacity_bound_after_successful_allocate_witness :
    run RefPool.api (ref_starboard true true) (ref_manager true true)
      [Call.Allocate (2 * MiB) 16 0, Call.UpdateVideoConfig config_4MiB] = some ref_scenario1 ∧
    ref_scenario1.using_memory_pool_ = true ∧
    (Allocate RefPool.api (ref_starboard true true) ref_scenario1 (512 * 1024) 16 0).1 ≠ [] ∧
    ∃ p, (Allocate RefPool.api (ref_starboard true true) ref_scenario1 (512 * 1024) 16
        0).2.reuse_allocator_ = some p ∧
      (RefPool.api.max_capacity p ≠ 0 →
        GetCurrentMemoryCapacity RefPool.api
          (Allocate RefPool.api (ref_starboard true true) ref_scenario1 (512 * 1024) 16 0).2 ≤
          RefPool.api.max_capacity p) :=
  ⟨rfl, by decide, by decide,
    C4_capacity_bound_after_successful_allocate RefPool.api (ref_starboard true true)
      ref_scenario1 (512 * 1024) 16 0 (by decide) RefPool.CapacityExceeded_iff (by decide)⟩

/-- C5, counterexample. The eager reference Manager after one successful
`Allocate(4096, 16)` is a reachable state with a live pool holding 4096 bytes;
the destructor fails its `DCHECK_EQ` there and, in a release build, destroys
that pool all the same. -/
theorem C5_teardown_counterexample :
    run RefPool.api (ref_starboard true false) (ref_manager true false)
      [Call.Allocate 4096 16 0] = some ref_one_live ∧
    ref_one_live.using_memory_pool_ = true ∧
    ref_one_live.reuse_allocator_ = some ref_one_live_pool ∧
    RefPool.api.GetAllocated ref_one_live_pool = 4096 ∧
    destruct_DCHECK RefPool.api ref_one_live = false ∧
    (destruct ref_one_live).reuse_allocator_ = none :=
  ⟨rfl, by decide, by decide, by decide, by decide, by decide⟩

/-- C5, amended. In every state of a pooled Manager with a live pool `p`:
`Allocate` and `UpdateVideoConfig` keep the pool (they only call its methods),
`Resume` changes nothing, so `CreateReuseAllocator` is not reached; `Free` and
`Suspend` either keep the pool or destroy it at a moment when its
`GetAllocated()` is 0. Object teardown destroys the live pool unconditionally:
that its `GetAllocated()` is 0 is asserted by a `DCHECK_EQ`, not ensured. -/
theorem C5_pool_destroyed_only_when_idle (A : BidirectionalFitReuseAllocator P)
    (sb : Starboard H) (m : DecoderBufferAllocator P H) (p : P)
    (hpool : m.using_memory_pool_ = true)
    (hlive : m.reuse_allocator_ = some p) :
    (∀ size alignment context,
      (Allocate A sb m size alignment context).2.reuse_allocator_ =
          some (A.Allocate p size alignment).2 ∨
        (Allocate A sb m size alignment context).2.reuse_allocator_ =
          some (A.Free (A.Allocate p size alignment).2 (A.Allocate p size alignment).1)) ∧
    (∀ allocations : Allocations, ∃ m1, Free A sb m allocations = some m1 ∧
      (m1.reuse_allocator_ = some (allocations.foldl (fun q b => A.Free q b.1) p) ∨
        (m1.reuse_allocator_ = none ∧
          A.GetAllocated (allocations.foldl (fun q b => A.Free q b.1) p) = 0))) ∧
    (∀ config, ∃ new_max,
      (UpdateVideoConfig A sb m config).reuse_allocator_ =
        some (A.IncreaseMaxCapacityIfNecessary p new_max)) ∧
    ((Suspend A m).reuse_allocator_ = some p ∨
      ((Suspend A m).reuse_allocator_ = none ∧ A.GetAllocated p = 0)) ∧
    Resume A sb m = m ∧
    (destruct m).reuse_allocator_ = none ∧
    (destruct_DCHECK A m = true → A.GetAllocated p = 0) := by
  have hpp : placement_pool A sb m = p := by simp [placement_pool, hlive]
  refine ⟨?_, ?_, ?_, ?_, ?_, ?_, ?_⟩
  · intro size alignment context
    rw [Allocate_pooled A sb m size alignment context hpool, hpp]
    by_cases h0 : (A.Allocate p size alignment).1 = 0
    · simp [h0]
    · cases hx : A.CapacityExceeded (A.Allocate p size alignment).2 <;> simp [h0, hx]
  · intro allocations
    simp only [Free, hpool, hlive]
    by_cases hod : m.is_memory_pool_allocated_on_demand_ = true
    · by_cases hz : A.GetAllocated (allocations.foldl (fun q b => A.Free q b.1) p) = 0
      · simp [hod, hz]
      · simp [hod, hz]
    · simp [hod]
  · intro config
    simp only [UpdateVideoConfig, hpool, hlive]
    exact ⟨_, rfl⟩
  · simp only [Suspend, hpool, hlive]
    by_cases hod : m.is_memory_pool_allocated_on_demand_ = true
    · simp [hod, hlive]
    · by_cases hz : A.GetAllocated p = 0
      · simp [hod, hz]
      · simp [hod, hz, hlive]
  · simp only [Resume, hpool, hlive]
    simp
  · simp [destruct, hpool, hlive]
  · simp [destruct_DCHECK, hpool, hlive]

/-- Witness of C5 (amended): on the eager reference Manager with 4096 bytes
live, `Suspend` keeps the pool and `Resume` changes nothing. -/
theorem C5_pool_destroyed_only_when_idle_witness :
    ref_one_live.using_memory_pool_ = true ∧
    ref_one_live.reuse_allocator_ = some ref_one_live_pool ∧
    ((Suspend RefPool.api ref_one_live).reuse_allocator_ = some ref_one_live_pool ∨
      ((Suspend RefPool.api ref_one_live).reuse_allocator_ = none ∧
        RefPool.api.GetAllocated ref_one_live_pool = 0)) ∧
    Resume RefPool.api (ref_starboard true false) ref_one_live = ref_one_live :=
  ⟨by decide, by decide,
    (C5_pool_destroyed_only_when_idle RefPool.api (ref_starboard true false) ref_one_live
      ref_one_live_pool (by decide) (by decide)).2.2.2.1,
    (C5_pool_destroyed_only_when_idle RefPool.api (ref_starboard true false) ref_one_live
      ref_one_live_pool (by decide) (by decide)).2.2.2.2.1⟩

/-- C6. In pooled mode, when `Allocate` finds no live pool it first runs
`CreateReuseAllocator(max_capacity)` with `max_capacity` equal to 0 if no video
codec has been recorded and to the platform budget
`SbMediaGetMaxBufferCapacity(codec, width, height, bits_per_pixel)` of the
recorded configuration otherwise; the pool is constructed from
`initial_capacity_`, the threshold 512, `allocation_unit_` and that
`max_capacity`, and the placement runs on it, so the pool left live is that pool
after the placement (and after the free of a denied placement). -/
theorem C6_allocate_creates_pool (A : BidirectionalFitReuseAllocator P) (sb : Starboard H)
    (m : DecoderBufferAllocator P H) (size alignment : Nat) (context : Int)
    (hpool : m.using_memory_pool_ = true)
    (hnone : m.reuse_allocator_ = none) :
    ∃ (max_capacity : Int) (pool : P),
      (m.video_codec_ = SbMediaVideoCodec.kSbMediaVideoCodecNone → max_capacity = 0) ∧
      (m.video_codec_ ≠ SbMediaVideoCodec.kSbMediaVideoCodecNone →
        max_capacity = sb.SbMediaGetMaxBufferCapacity m.video_codec_ m.resolution_width_
          m.resolution_height_ m.bits_per_pixel_) ∧
      pool = A.create (to_size_t sb.size_t_bits m.initial_capacity_) 512
        (to_size_t sb.size_t_bits m.allocation_unit_) (to_size_t sb.size_t_bits max_capacity) ∧
      to_size_t sb.size_t_bits 0 = 0 ∧
      (CreateReuseAllocator A sb m max_capacity).reuse_allocator_ = some pool ∧
      Allocate A sb m size alignment context =
        Allocate A sb (CreateReuseAllocator A sb m max_capacity) size alignment context ∧
      ((Allocate A sb m size alignment context).2.reuse_allocator_ =
          some (A.Allocate pool size alignment).2 ∨
        (Allocate A sb m size alignment context).2.reuse_allocator_ =
          some (A.Free (A.Allocate pool size alignment).2 (A.Allocate pool size alignment).1)) := by
  refine ⟨if m.video_codec_ ≠ SbMediaVideoCodec.kSbMediaVideoCodecNone then
      sb.SbMediaGetMaxBufferCapacity m.video_codec_ m.resolution_width_
        m.resolution_height_ m.bits_per_pixel_ else 0, _, ?_, ?_, rfl, ?_, rfl, ?_, ?_⟩
  · intro h
    simp [h]
  · intro h
    simp [h]
  · simp [to_size_t]
  · simp [Allocate, hpool, hnone, CreateReuseAllocator]
  · have hpp : placement_pool A sb m =
        A.create (to_size_t sb.size_t_bits m.initial_capacity_) 512
          (to_size_t sb.size_t_bits m.allocation_unit_)
          (to_size_t sb.size_t_bits
            (if m.video_codec_ ≠ SbMediaVideoCodec.kSbMediaVideoCodecNone then
              sb.SbMediaGetMaxBufferCapacity m.video_codec_ m.resolution_width_
                m.resolution_height_ m.bits_per_pixel_
             else 0)) := by
      simp [placement_pool, hnone, kSmallAllocationThreshold]
    rw [Allocate_pooled A sb m size alignment context hpool, hpp]
    generalize A.create (to_size_t sb.size_t_bits m.initial_capacity_) 512
          (to_size_t sb.size_t_bits m.allocation_unit_)
          (to_size_t sb.size_t_bits
            (if m.video_codec_ ≠ SbMediaVideoCodec.kSbMediaVideoCodecNone then
              sb.SbMediaGetMaxBufferCapacity m.video_codec_ m.resolution_width_
                m.resolution_height_ m.bits_per_pixel_
             else 0)) = q
    by_cases h0 : (A.Allocate q size alignment).1 = 0
    · simp [h0]
    · cases hx : A.CapacityExceeded (A.Allocate q size alignment).2 <;> simp [h0, hx]

/-- Witness of C6: the on-demand reference Manager with `config_4MiB` recorded
and no pool; `Allocate(64 KiB, 16)` leaves a pool of 1 MiB with a ceiling of
4 MiB. -/
theorem C6_allocate_creates_pool_witness :
    ref_configured.using_memory_pool_ = true ∧
    ref_configured.reuse_allocator_ = none ∧
    (∃ (max_capacity : Int) (pool : RefPool),
      (ref_configured.video_codec_ = SbMediaVideoCodec.kSbMediaVideoCodecNone →
        max_capacity = 0) ∧
      (ref_configured.video_codec_ ≠ SbMediaVideoCodec.kSbMediaVideoCodecNone →
        max_capacity = (ref_starboard true true).SbMediaGetMaxBufferCapacity
          ref_configured.video_codec_ ref_configured.resolution_width_
          ref_configured.resolution_height_ ref_configured.bits_per_pixel_) ∧
      pool = RefPool.api.create
        (to_size_t (ref_starboard true true).size_t_bits ref_configured.initial_capacity_) 512
        (to_size_t (ref_starboard true true).size_t_bits ref_configured.allocation_unit_)
        (to_size_t (ref_starboard true true).size_t_bits max_capacity) ∧
      to_size_t (ref_starboard true true).size_t_bits 0 = 0 ∧
      (CreateReuseAllocator RefPool.api (ref_starboard true true) ref_configured
        max_capacity).reuse_allocator_ = some pool ∧
      Allocate RefPool.api (ref_starboard true true) ref_configured (64 * 1024) 16 0 =
        Allocate RefPool.api (ref_starboard true true)
          (CreateReuseAllocator RefPool.api (ref_starboard true true) ref_configured
            max_capacity) (64 * 1024) 16 0 ∧
      ((Allocate RefPool.api (ref_starboard true true) ref_configured (64 * 1024) 16
            0).2.reuse_allocator_ =
          some (RefPool.api.Allocate pool (64 * 1024) 16).2 ∨
        (Allocate RefPool.api (ref_starboard true true) ref_configured (64 * 1024) 16
            0).2.reuse_allocator_ =
          some (RefPool.api.Free (RefPool.api.Allocate pool (64 * 1024) 16).2
            (RefPool.api.Allocate pool (64 * 1024) 16).1))) ∧
    GetCurrentMemoryCapacity RefPool.api
      (Allocate RefPool.api (ref_starboard true true) ref_configured (64 * 1024) 16 0).2 = MiB ∧
    GetMaximumMemoryCapacity RefPool.api (ref_starboard true true)
      (Allocate RefPool.api (ref_starboard true true) ref_configured (64 * 1024) 16 0).2 =
        4 * MiB :=
  ⟨by decide, by decide,
    C6_allocate_creates_pool RefPool.api (ref_starboard true true) ref_configured (64 * 1024) 16 0
      (by decide) (by decide),
    by decide, by decide⟩

/-- C7. In pooled on-demand mode with a live pool, `Free(record)` frees every
buffer of the record through the Pool Allocator and then destroys the pool if
and only if its `GetAllocated()` is 0: after a `Free` that releases the last
live allocation no pool is live and `GetCurrentMemoryCapacity()` and
`GetAllocatedMemory()` are 0; after a `Free` that leaves allocations live the
pool is retained and (the Pool Allocator never changing its capacity in `Free`)
so is the capacity. -/
theorem C7_free_on_demand (A : BidirectionalFitReuseAllocator P) (sb : Starboard H)
    (m : DecoderBufferAllocator P H) (p : P) (allocations : Allocations)
    (hpool : m.using_memory_pool_ = true)
    (hod : m.is_memory_pool_allocated_on_demand_ = true)
    (hlive : m.reuse_allocator_ = some p)
    (hcap : ∀ q b, A.GetCapacity (A.Free q b) = A.GetCapacity q) :
    (A.GetAllocated (allocations.foldl (fun q b => A.Free q b.1) p) = 0 →
      Free A sb m allocations = some { m with reuse_allocator_ := none } ∧
      GetCurrentMemoryCapacity A { m with reuse_allocator_ := none } = 0 ∧
      GetAllocatedMemory A { m with reuse_allocator_ := none } = 0) ∧
    (A.GetAllocated (allocations.foldl (fun q b => A.Free q b.1) p) ≠ 0 →
      Free A sb m allocations =
        some { m with reuse_allocator_ := some (allocations.foldl (fun q b => A.Free q b.1) p) } ∧
      GetCurrentMemoryCapacity A
          { m with reuse_allocator_ := some (allocations.foldl (fun q b => A.Free q b.1) p) } =
        GetCurrentMemoryCapacity A m ∧
      GetAllocatedMemory A
          { m with reuse_allocator_ := some (allocations.foldl (fun q b => A.Free q b.1) p) } =
        A.GetAllocated (allocations.foldl (fun q b => A.Free q b.1) p)) := by
  constructor
  · intro hz
    refine ⟨?_, ?_, ?_⟩
    · simp [Free, hpool, hod, hlive, hz]
    · simp [GetCurrentMemoryCapacity, hpool]
    · simp [GetAllocatedMemory, hpool]
  · intro hz
    refine ⟨?_, ?_, ?_⟩
    · simp [Free, hpool, hod, hlive, hz]
    · simp [GetCurrentMemoryCapacity, hpool, hlive, foldl_Free_GetCapacity A hcap]
    · simp [GetAllocatedMemory, hpool]

/-- Witness of C7: on the on-demand reference Manager with two buffers live,
freeing the first keeps the pool and its 1 MiB. -/
theorem C7_free_on_demand_witness :
    ref_two_live.using_memory_pool_ = true ∧
    ref_two_live.is_memory_pool_allocated_on_demand_ = true ∧
    ref_two_live.reuse_allocator_ = some ref_two_live_pool ∧
    List.foldl (fun q b => RefPool.api.Free q b.1) ref_two_live_pool [(16, 4096)] =
      ref_two_live_pool_rest ∧
    RefPool.api.GetAllocated ref_two_live_pool_rest ≠ 0 ∧
    (Free RefPool.api (ref_starboard true true) ref_two_live [(16, 4096)] =
        some { ref_two_live with reuse_allocator_ := some ref_two_live_pool_rest } ∧
      GetCurrentMemoryCapacity RefPool.api
          { ref_two_live with reuse_allocator_ := some ref_two_live_pool_rest } =
        GetCurrentMemoryCapacity RefPool.api ref_two_live ∧
      GetAllocatedMemory RefPool.api
          { ref_two_live with reuse_allocator_ := some ref_two_live_pool_rest } =
        RefPool.api.GetAllocated ref_two_live_pool_rest) ∧
    GetCurrentMemoryCapacity RefPool.api ref_two_live = MiB :=
  ⟨by decide, by decide, by decide, by decide, by decide,
    (C7_free_on_demand RefPool.api (ref_starboard true true) ref_two_live ref_two_live_pool
      [(16, 4096)] (by decide) (by decide) (by decide) RefPool.Free_GetCapacity).2 (by decide),
    by decide⟩

/-- C8. In pooled eager mode `Suspend()` destroys the pool exactly when a pool
is live and its `GetAllocated()` is 0, and then `GetCurrentMemoryCapacity()` is
0; when the pool has live allocations, or no pool is live, `Suspend()` leaves
the whole state unchanged. -/
theorem C8_suspend_eager (A : BidirectionalFitReuseAllocator P)
    (m : DecoderBufferAllocator P H)
    (hpool : m.using_memory_pool_ = true)
    (heager : m.is_memory_pool_allocated_on_demand_ = false) :
    (∀ p, m.reuse_allocator_ = some p → A.GetAllocated p = 0 →
      Suspend A m = { m with reuse_allocator_ := none } ∧
      GetCurrentMemoryCapacity A (Suspend A m) = 0) ∧
    (∀ p, m.reuse_allocator_ = some p → A.GetAllocated p ≠ 0 → Suspend A m = m) ∧
    (m.reuse_allocator_ = none → Suspend A m = m) ∧
    (((Suspend A m).reuse_allocator_ = none ∧ m.reuse_allocator_ ≠ none) ↔
      ∃ p, m.reuse_allocator_ = some p ∧ A.GetAllocated p = 0) := by
  refine ⟨?_, ?_, ?_, ?_⟩
  · intro p hp hz
    simp [Suspend, hpool, heager, hp, hz, GetCurrentMemoryCapacity]
  · intro p hp hz
    simp [Suspend, hpool, heager, hp, hz]
  · intro hn
    simp [Suspend, hpool, heager, hn]
  · cases hp : m.reuse_allocator_ with
    | none => simp [Suspend, hpool, heager, hp]
    | some p =>
      by_cases hz : A.GetAllocated p = 0
      · simp [Suspend, hpool, heager, hp, hz]
      · simp [Suspend, hpool, heager, hp, hz]

/-- Witness of C8: the freshly constructed eager reference Manager has an idle
pool of 1 MiB; `Suspend()` destroys it and the capacity is 0. -/
theorem C8_suspend_eager_witness :
    (ref_manager true false).using_memory_pool_ = true ∧
    (ref_manager true false).is_memory_pool_allocated_on_demand_ = false ∧
    GetCurrentMemoryCapacity RefPool.api (ref_manager true false) = MiB ∧
    (Suspend RefPool.api (ref_manager true false) =
        { ref_manager true false with reuse_allocator_ := none } ∧
      GetCurrentMemoryCapacity RefPool.api (Suspend RefPool.api (ref_manager true false)) = 0) :=
  ⟨by decide, by decide, by decide,
    (C8_suspend_eager RefPool.api (ref_manager true false) (by decide) (by decide)).1
      (RefPool.create 1048576 512 1048576 0) (by decide) (by decide)⟩

/-- C9, counterexample. On the eager reference Manager: `Allocate(4096, 16)`
returns the record `[(16, 4096)]`, `Suspend()` is called while it is live, and
the later `Free` of that record releases the last live allocation; afterwards
the pool is still live and `GetCurrentMemoryCapacity()` is 1 MiB, not 0. -/
theorem C9_suspend_not_deferred_counterexample :
    (Allocate RefPool.api (ref_starboard true false) (ref_manager true false) 4096 16 0).1 =
      [(16, 4096)] ∧
    (run RefPool.api (ref_starboard true false) (ref_manager true false)
        [Call.Allocate 4096 16 0, Call.Suspend, Call.Free [(16, 4096)]]).map
      (fun s => (s.reuse_allocator_.isSome, GetAllocatedMemory RefPool.api s,
        GetCurrentMemoryCapacity RefPool.api s)) = some (true, 0, 1024 * 1024) := by
  decide

/-- C9, amended. In pooled eager mode a `Suspend()` called while allocations are
live is dropped: it leaves the state unchanged; every later `Free` keeps the
pool live, also the one that releases the last live allocation; the pool is
destroyed, and `GetCurrentMemoryCapacity()` is 0, once `Suspend()` is called
again on the drained pool. -/
theorem C9_suspend_dropped_when_busy (A : BidirectionalFitReuseAllocator P) (sb : Starboard H)
    (m : DecoderBufferAllocator P H) (p : P)
    (hpool : m.using_memory_pool_ = true)
    (heager : m.is_memory_pool_allocated_on_demand_ = false)
    (hlive : m.reuse_allocator_ = some p)
    (hbusy : A.GetAllocated p ≠ 0) :
    Suspend A m = m ∧
    (∀ allocations : Allocations,
      Free A sb (Suspend A m) allocations =
        some { m with reuse_allocator_ := some (allocations.foldl (fun q b => A.Free q b.1) p) } ∧
      (A.GetAllocated (allocations.foldl (fun q b => A.Free q b.1) p) = 0 →
        Suspend A
            { m with reuse_allocator_ := some (allocations.foldl (fun q b => A.Free q b.1) p) } =
          { m with reuse_allocator_ := none } ∧
        GetCurrentMemoryCapacity A { m with reuse_allocator_ := none } = 0)) := by
  have hs : Suspend A m = m := by simp [Suspend, hpool, heager, hlive, hbusy]
  refine ⟨hs, ?_⟩
  intro allocations
  rw [hs]
  refine ⟨?_, ?_⟩
  · simp [Free, hpool, heager, hlive]
  · intro hz
    simp [Suspend, hpool, heager, hz, GetCurrentMemoryCapacity]

/-- Witness of C9 (amended): the eager reference Manager with 4096 bytes live. -/
theorem C9_suspend_dropped_when_busy_witness :
    ref_one_live.using_memory_pool_ = true ∧
    ref_one_live.is_memory_pool_allocated_on_demand_ = false ∧
    ref_one_live.reuse_allocator_ = some ref_one_live_pool ∧
    RefPool.api.GetAllocated ref_one_live_pool ≠ 0 ∧
    Suspend RefPool.api ref_one_live = ref_one_live :=
  ⟨by decide, by decide, by decide, by decide,
    (C9_suspend_dropped_when_busy RefPool.api (ref_starboard true false) ref_one_live
      ref_one_live_pool (by decide) (by decide) (by decide) (by decide)).1⟩

/-- C10, counterexample. On the on-demand reference Manager
`UpdateVideoConfig(config_4MiB)` and a denied `Allocate(8 MiB, 16)` (it returns
the empty record) lead to a state with zero live allocations; after `Suspend()`
`GetCurrentMemoryCapacity()` is 1 MiB, not 0. -/
theorem C10_idle_teardown_counterexample :
    (Allocate RefPool.api (ref_starboard true true) ref_configured (8 * MiB) 16 0).1 = [] ∧
    (run RefPool.api (ref_starboard true true) (ref_manager true true)
        [Call.UpdateVideoConfig config_4MiB, Call.Allocate (8 * MiB) 16 0]).map
      (fun s => GetAllocatedMemory RefPool.api s) = some 0 ∧
    (run RefPool.api (ref_starboard true true) (ref_manager true true)
        [Call.UpdateVideoConfig config_4MiB, Call.Allocate (8 * MiB) 16 0, Call.Suspend]).map
      (fun s => GetCurrentMemoryCapacity RefPool.api s) = some (1024 * 1024) := by
  decide

/-- C10, amended. In a state with `GetAllocatedMemory() == 0`: with pooling
disabled and in pooled eager mode `GetCurrentMemoryCapacity()` is 0 after
`Suspend()`; in pooled on-demand mode `Suspend()` changes nothing, so the
capacity afterwards is 0 when no pool is live and is the capacity of the live
pool otherwise. -/
theorem C10_idle_teardown (A : BidirectionalFitReuseAllocator P)
    (m : DecoderBufferAllocator P H)
    (hidle : GetAllocatedMemory A m = 0) :
    (m.using_memory_pool_ = false → GetCurrentMemoryCapacity A (Suspend A m) = 0) ∧
    (m.using_memory_pool_ = true → m.is_memory_pool_allocated_on_demand_ = false →
      GetCurrentMemoryCapacity A (Suspend A m) = 0) ∧
    (m.using_memory_pool_ = true → m.is_memory_pool_allocated_on_demand_ = true →
      Suspend A m = m ∧
      (m.reuse_allocator_ = none → GetCurrentMemoryCapacity A (Suspend A m) = 0) ∧
      (∀ p, m.reuse_allocator_ = some p →
        GetCurrentMemoryCapacity A (Suspend A m) = A.GetCapacity p)) := by
  refine ⟨?_, ?_, ?_⟩
  · intro hu
    simp only [GetAllocatedMemory, hu] at hidle
    simp [Suspend, hu, GetCurrentMemoryCapacity]
    exact hidle
  · intro hu he
    cases hp : m.reuse_allocator_ with
    | none => simp [Suspend, hu, he, hp, GetCurrentMemoryCapacity]
    | some p =>
      have hz : A.GetAllocated p = 0 := by simpa [GetAllocatedMemory, hu, hp] using hidle
      simp [Suspend, hu, he, hp, hz, GetCurrentMemoryCapacity]
  · intro hu hod
    have hs : Suspend A m = m := by simp [Suspend, hu, hod]
    refine ⟨hs, ?_, ?_⟩
    · intro hn
      simp [hs, GetCurrentMemoryCapacity, hu, hn]
    · intro p hp
      simp [hs, GetCurrentMemoryCapacity, hu, hp]

/-- Witness of C10 (amended): scenario 3 of the spec, the freshly constructed
on-demand reference Manager: nothing is allocated, no pool is live, and after
`Suspend()` the capacity is 0. -/
theorem C10_idle_teardown_witness :
    GetAllocatedMemory RefPool.api (ref_manager true true) = 0 ∧
    (ref_manager true true).using_memory_pool_ = true ∧
    (ref_manager true true).is_memory_pool_allocated_on_demand_ = true ∧
    (ref_manager true true).reuse_allocator_ = none ∧
    GetCurrentMemoryCapacity RefPool.api (Suspend RefPool.api (ref_manager true true)) = 0 :=
  ⟨by decide, by decide, by decide, by decide,
    ((C10_idle_teardown RefPool.api (ref_manager true true) (by decide)).2.2
      (by decide) (by decide)).2.1 (by decide)⟩

/-- C11, evaluation at the failing input. The eager reference Manager records
`config_4MiB` (budget 4 MiB, which becomes the ceiling of the live pool), is
suspended while idle and resumed: the configuration is still recorded, and the
pool that `Resume()` creates has the ceiling 0, so that
`GetMaximumMemoryCapacity()` is 0; the pool that `Allocate` creates from the
same recorded configuration has the ceiling 4 MiB. -/
theorem C11_resume_creates_unbounded_pool :
    run RefPool.api (ref_starboard true false) (ref_manager true false)
      [Call.UpdateVideoConfig config_4MiB, Call.Suspend, Call.Resume] = some ref_resumed ∧
    (UpdateVideoConfig RefPool.api (ref_starboard true false) (ref_manager true false)
      config_4MiB).reuse_allocator_.map RefPool.api.max_capacity = some (4 * MiB) ∧
    ref_resumed.video_codec_ = SbMediaVideoCodec.codec 1 ∧
    (ref_starboard true false).SbMediaGetMaxBufferCapacity ref_resumed.video_codec_
      ref_resumed.resolution_width_ ref_resumed.resolution_height_
      ref_resumed.bits_per_pixel_ = 4 * 1024 * 1024 ∧
    ref_resumed.reuse_allocator_.map RefPool.api.max_capacity = some 0 ∧
    GetMaximumMemoryCapacity RefPool.api (ref_starboard true false) ref_resumed = 0 ∧
    RefPool.api.max_capacity (placement_pool RefPool.api (ref_starboard true true)
      ref_configured) = 4 * MiB :=
  ⟨rfl, by decide, by decide, by decide, by decide, by decide, by decide⟩

/-- C12. When pooling is disabled or the pool is on-demand, `Suspend()` and
`Resume()` return the state unchanged: pool, recorded video configuration and
byte counter are those before the call. -/
theorem C12_suspend_resume_noop (A : BidirectionalFitReuseAllocator P) (sb : Starboard H)
    (m : DecoderBufferAllocator P H)
    (hmode : m.using_memory_pool_ = false ∨ m.is_memory_pool_allocated_on_demand_ = true) :
    Suspend A m = m ∧ Resume A sb m = m := by
  rcases hmode with h | h
  · simp [Suspend, Resume, h]
  · simp [Suspend, Resume, h]

/-- Witness of C12: the on-demand reference Manager with two buffers live. -/
theorem C12_suspend_resume_noop_witness :
    (ref_two_live.using_memory_pool_ = false ∨
      ref_two_live.is_memory_pool_allocated_on_demand_ = true) ∧
    Suspend RefPool.api ref_two_live = ref_two_live ∧
    Resume RefPool.api (ref_starboard true true) ref_two_live = ref_two_live :=
  ⟨by decide,
    C12_suspend_resume_noop RefPool.api (ref_starboard true true) ref_two_live (by decide)⟩

/-- C13. `UpdateVideoConfig` never lowers the ceiling of a live pool. For a Pool
Allocator whose `IncreaseMaxCapacityIfNecessary(n)` sets the ceiling to
`max(current, n)` and leaves allocated bytes and capacity alone: after
`UpdateVideoConfig(c)` on a live pool with ceiling `m` the ceiling is
`max(m, budget(c))`, at least `m` (the budget being the `int` returned by the
platform, converted to `std::size_t`), allocated bytes and capacity are
unchanged; over any sequence of calls the ceiling does not decrease; and in any
state the call neither creates nor destroys a pool. -/
theorem C13_update_never_lowers_ceiling (A : BidirectionalFitReuseAllocator P)
    (sb : Starboard H) (m : DecoderBufferAllocator P H) (p : P)
    (hpool : m.using_memory_pool_ = true)
    (hlive : m.reuse_allocator_ = some p)
    (hmax : ∀ q n, A.max_capacity (A.IncreaseMaxCapacityIfNecessary q n) =
      max (A.max_capacity q) n)
    (halloc : ∀ q n, A.GetAllocated (A.IncreaseMaxCapacityIfNecessary q n) = A.GetAllocated q)
    (hcap : ∀ q n, A.GetCapacity (A.IncreaseMaxCapacityIfNecessary q n) = A.GetCapacity q) :
    (∀ c : VideoDecoderConfig, ∃ q,
      (UpdateVideoConfig A sb m c).reuse_allocator_ = some q ∧
      A.max_capacity q =
        max (A.max_capacity p)
          (to_size_t sb.size_t_bits
            (sb.SbMediaGetMaxBufferCapacity (sb.MediaVideoCodecToSbMediaVideoCodec c.codec)
              c.width c.height c.BitsPerChannel)) ∧
      (0 ≤ sb.SbMediaGetMaxBufferCapacity (sb.MediaVideoCodecToSbMediaVideoCodec c.codec)
            c.width c.height c.BitsPerChannel →
        sb.SbMediaGetMaxBufferCapacity (sb.MediaVideoCodecToSbMediaVideoCodec c.codec)
            c.width c.height c.BitsPerChannel < (2 : Int) ^ sb.size_t_bits →
        ((A.max_capacity q : Nat) : Int) =
          max ((A.max_capacity p : Nat) : Int)
            (sb.SbMediaGetMaxBufferCapacity (sb.MediaVideoCodecToSbMediaVideoCodec c.codec)
              c.width c.height c.BitsPerChannel)) ∧
      A.max_capacity p ≤ A.max_capacity q ∧
      A.GetAllocated q = A.GetAllocated p ∧
      A.GetCapacity q = A.GetCapacity p) ∧
    (∀ cs : List VideoDecoderConfig, ∃ q,
      (cs.foldl (UpdateVideoConfig A sb) m).reuse_allocator_ = some q ∧
      A.max_capacity p ≤ A.max_capacity q ∧
      A.GetAllocated q = A.GetAllocated p ∧
      A.GetCapacity q = A.GetCapacity p) ∧
    (∀ (m1 : DecoderBufferAllocator P H) (c : VideoDecoderConfig),
      (UpdateVideoConfig A sb m1 c).reuse_allocator_.isSome = m1.reuse_allocator_.isSome) := by
  refine ⟨?_, ?_, ?_⟩
  · intro c
    rw [UpdateVideoConfig_live A sb m p c hpool hlive]
    refine ⟨_, rfl, hmax _ _, ?_, ?_, halloc _ _, hcap _ _⟩
    · intro h0 h1
      rw [hmax, Nat.cast_max, to_size_t_of_nonneg _ _ h0 h1]
    · rw [hmax]
      exact Nat.le_max_left _ _
  · intro cs
    have key : ∀ (cs : List VideoDecoderConfig) (m1 : DecoderBufferAllocator P H) (p1 : P),
        m1.using_memory_pool_ = true → m1.reuse_allocator_ = some p1 →
        ∃ q, (cs.foldl (UpdateVideoConfig A sb) m1).reuse_allocator_ = some q ∧
          A.max_capacity p1 ≤ A.max_capacity q ∧
          A.GetAllocated q = A.GetAllocated p1 ∧
          A.GetCapacity q = A.GetCapacity p1 := by
      intro cs
      induction cs with
      | nil =>
        intro m1 p1 _ h1
        exact ⟨p1, h1, Nat.le_refl _, rfl, rfl⟩
      | cons c cs ih =>
        intro m1 p1 hu h1
        simp only [List.foldl_cons]
        have hstep := UpdateVideoConfig_live A sb m1 p1 c hu h1
        obtain ⟨q, hq1, hq2, hq3, hq4⟩ :=
          ih (UpdateVideoConfig A sb m1 c) _ (by rw [hstep]; exact hu) (by rw [hstep])
        refine ⟨q, hq1, ?_, ?_, ?_⟩
        · refine Nat.le_trans ?_ hq2
          rw [hmax]
          exact Nat.le_max_left _ _
        · rw [hq3, halloc]
        · rw [hq4, hcap]
    exact key cs m p hpool hlive
  · intro m1 c
    unfold UpdateVideoConfig
    cases hu : m1.using_memory_pool_ <;> cases hp : m1.reuse_allocator_ <;> simp [hp]

/-- Witness of C13: on the eager reference Manager, whose pool got the ceiling
4 MiB from `config_4MiB`, the smaller `config_512KiB` leaves the ceiling at
4 MiB. -/
theorem C13_update_never_lowers_ceiling_witness :
    (UpdateVideoConfig RefPool.api (ref_starboard true false) (ref_manager true false)
      config_4MiB).using_memory_pool_ = true ∧
    (UpdateVideoConfig RefPool.api (ref_starboard true false) (ref_manager true false)
      config_4MiB).reuse_allocator_ =
      some (RefPool.IncreaseMaxCapacityIfNecessary (RefPool.create 1048576 512 1048576 0)
        (4 * MiB)) ∧
    (UpdateVideoConfig RefPool.api (ref_starboard true false)
      (UpdateVideoConfig RefPool.api (ref_starboard true false) (ref_manager true false)
        config_4MiB) config_512KiB).reuse_allocator_.map RefPool.api.max_capacity =
      some (4 * MiB) := by
  refine ⟨by decide, by decide, ?_⟩
  obtain ⟨q, h1, h2, _⟩ :=
    (C13_update_never_lowers_ceiling RefPool.api (ref_starboard true false)
      (UpdateVideoConfig RefPool.api (ref_starboard true false) (ref_manager true false)
        config_4MiB)
      (RefPool.IncreaseMaxCapacityIfNecessary (RefPool.create 1048576 512 1048576 0) (4 * MiB))
      (by decide) (by decide) (fun _ _ => rfl) (fun _ _ => rfl) (fun _ _ => rfl)).1
      config_512KiB
  rw [h1, Option.map_some', h2]
  decide

/-- C14. `UpdateVideoConfig` is order-independent with respect to the ceiling:
for a Pool Allocator whose `IncreaseMaxCapacityIfNecessary(n)` sets the ceiling
to `max(current, n)`, and for every live pool and configurations `c1`, `c2`, the
ceiling after `c1` then `c2` equals the ceiling after `c2` then `c1`; and (a
repeated `IncreaseMaxCapacityIfNecessary(n)` leaving the pool as it is) applying
the same configuration twice gives the same state as applying it once. -/
theorem C14_update_order_independent (A : BidirectionalFitReuseAllocator P)
    (sb : Starboard H) (m : DecoderBufferAllocator P H) (c1 c2 : VideoDecoderConfig)
    (hmax : ∀ q n, A.max_capacity (A.IncreaseMaxCapacityIfNecessary q n) =
      max (A.max_capacity q) n)
    (hidem : ∀ q n, A.IncreaseMaxCapacityIfNecessary (A.IncreaseMaxCapacityIfNecessary q n) n =
      A.IncreaseMaxCapacityIfNecessary q n) :
    (m.using_memory_pool_ = true → ∀ p, m.reuse_allocator_ = some p →
      ∃ q12 q21,
        (UpdateVideoConfig A sb (UpdateVideoConfig A sb m c1) c2).reuse_allocator_ = some q12 ∧
        (UpdateVideoConfig A sb (UpdateVideoConfig A sb m c2) c1).reuse_allocator_ = some q21 ∧
        A.max_capacity q12 = A.max_capacity q21) ∧
    UpdateVideoConfig A sb (UpdateVideoConfig A sb m c1) c1 = UpdateVideoConfig A sb m c1 := by
  constructor
  · intro hpool p hlive
    have h1 := UpdateVideoConfig_live A sb m p c1 hpool hlive
    have h2 := UpdateVideoConfig_live A sb m p c2 hpool hlive
    have h12 := UpdateVideoConfig_live A sb (UpdateVideoConfig A sb m c1) _ c2
      (by rw [h1]; exact hpool) (by rw [h1])
    have h21 := UpdateVideoConfig_live A sb (UpdateVideoConfig A sb m c2) _ c1
      (by rw [h2]; exact hpool) (by rw [h2])
    refine ⟨_, _, by rw [h12], by rw [h21], ?_⟩
    simp only [hmax]
    rw [Nat.max_assoc, Nat.max_assoc, Nat.max_comm (to_size_t _ _)]
  · cases hu : m.using_memory_pool_ with
    | false => simp [UpdateVideoConfig, hu]
    | true =>
      cases hp : m.reuse_allocator_ with
      | none => simp [UpdateVideoConfig, hu, hp]
      | some p =>
        have h1 := UpdateVideoConfig_live A sb m p c1 hu hp
        have h11 := UpdateVideoConfig_live A sb (UpdateVideoConfig A sb m c1) _ c1
          (by rw [h1]; exact hu) (by rw [h1])
        rw [h11, h1]
        simp [hidem]

/-- Witness of C14: on the eager reference Manager, `config_4MiB` and
`config_512KiB` in either order leave the ceiling at 4 MiB. -/
theorem C14_update_order_independent_witness :
    (ref_manager true false).using_memory_pool_ = true ∧
    (UpdateVideoConfig RefPool.api (ref_starboard true false)
      (UpdateVideoConfig RefPool.api (ref_starboard true false) (ref_manager true false)
        config_512KiB) config_4MiB).reuse_allocator_.map RefPool.api.max_capacity =
      some (4 * MiB) ∧
    UpdateVideoConfig RefPool.api (ref_starboard true false)
        (UpdateVideoConfig RefPool.api (ref_starboard true false) (ref_manager true false)
          config_4MiB) config_4MiB =
      UpdateVideoConfig RefPool.api (ref_starboard true false) (ref_manager true false)
        config_4MiB :=
  ⟨by decide, by decide,
    (C14_update_order_independent RefPool.api (ref_starboard true false)
      (ref_manager true false) config_4MiB config_512KiB (fun _ _ => rfl)
      (fun q n => by
        show RefPool.IncreaseMaxCapacityIfNecessary
          (RefPool.IncreaseMaxCapacityIfNecessary q n) n =
            RefPool.IncreaseMaxCapacityIfNecessary q n
        simp [RefPool.IncreaseMaxCapacityIfNecessary])).2⟩

/-- C15, evaluation at the failing input. On an eager Manager of a platform whose
budget table gives 4 MiB for every codec, the pool has the ceiling 0;
`UpdateVideoConfig` with a configuration whose codec is
`kSbMediaVideoCodecNone` records that codec and raises the ceiling to 4 MiB,
while the pool that `Allocate` would create for the same recorded configuration
has the ceiling 0. -/
theorem C15_update_with_no_codec_sets_ceiling :
    (construct RefPool.api (ref_starboard_flat true false) 0 (-1) (-1)
      (-1)).reuse_allocator_.map RefPool.api.max_capacity = some 0 ∧
    (UpdateVideoConfig RefPool.api (ref_starboard_flat true false)
      (construct RefPool.api (ref_starboard_flat true false) 0 (-1) (-1) (-1))
      config_no_codec).video_codec_ = SbMediaVideoCodec.kSbMediaVideoCodecNone ∧
    (UpdateVideoConfig RefPool.api (ref_starboard_flat true false)
      (construct RefPool.api (ref_starboard_flat true false) 0 (-1) (-1) (-1))
      config_no_codec).reuse_allocator_.map RefPool.api.max_capacity = some (4 * MiB) ∧
    RefPool.api.max_capacity (placement_pool RefPool.api (ref_starboard_flat true true)
      (UpdateVideoConfig RefPool.api (ref_starboard_flat true true)
        (construct RefPool.api (ref_starboard_flat true true) 0 (-1) (-1) (-1))
        config_no_codec)) = 0 := by
  decide

/-- C16, evaluation at the failing input. With pooling disabled,
`UpdateVideoConfig(config_4MiB)` returns the state unchanged: the recorded codec
is still `kSbMediaVideoCodecNone` and `GetMaximumMemoryCapacity()` is 0, not the
budget of 4 MiB; in pooled on-demand mode the same call records the
configuration and `GetMaximumMemoryCapacity()` is 4 MiB. -/
theorem C16_update_not_recorded_without_pool :
    (UpdateVideoConfig RefPool.api (ref_starboard false false) (ref_manager false false)
      config_4MiB).video_codec_ = SbMediaVideoCodec.kSbMediaVideoCodecNone ∧
    (UpdateVideoConfig RefPool.api (ref_starboard false false) (ref_manager false false)
      config_4MiB).resolution_width_ = -1 ∧
    GetMaximumMemoryCapacity RefPool.api (ref_starboard false false)
      (UpdateVideoConfig RefPool.api (ref_starboard false false) (ref_manager false false)
        config_4MiB) = 0 ∧
    (ref_starboard false false).SbMediaGetMaxBufferCapacity
      ((ref_starboard false false).MediaVideoCodecToSbMediaVideoCodec config_4MiB.codec)
      config_4MiB.width config_4MiB.height config_4MiB.BitsPerChannel = 4 * 1024 * 1024 ∧
    ref_configured.video_codec_ = SbMediaVideoCodec.codec 1 ∧
    GetMaximumMemoryCapacity RefPool.api (ref_starboard true true) ref_configured = 4 * MiB := by
  decide

/-- C17, counterexample. With pooling disabled, `Allocate(4096, 64)` returns a
one-buffer record and brings `GetCurrentMemoryCapacity()` to 4096; the `Free` of
that record brings `GetAllocatedMemory()` back to 0 and changes
`GetCurrentMemoryCapacity()` from 4096 to 0. -/
theorem C17_free_changes_capacity_counterexample :
    (Allocate RefPool.api (ref_starboard false false) (ref_manager false false) 4096 64 0).1 =
      [(1, 4096)] ∧
    GetCurrentMemoryCapacity RefPool.api
      (Allocate RefPool.api (ref_starboard false false) (ref_manager false false) 4096 64
        0).2 = 4096 ∧
    (Free RefPool.api (ref_starboard false false)
        (Allocate RefPool.api (ref_starboard false false) (ref_manager false false) 4096 64
          0).2 [(1, 4096)]).map
      (fun s => (GetAllocatedMemory RefPool.api s, GetCurrentMemoryCapacity RefPool.api s)) =
      some (0, 0) := by
  decide

/-- C17, amended. In every mode a successful `Allocate(n, a)` followed
immediately by the `Free` of the returned record brings `GetAllocatedMemory()`
back to its value before the `Allocate` (the Pool Allocator undoing the
accounting of a placement in `Free` and starting empty, the byte counter being a
word). The `Free` leaves `GetCurrentMemoryCapacity()` unchanged when pooling is
on and the pool stays live (the Pool Allocator keeping its capacity in `Free`);
when the `Free` destroys the pool, which happens only in on-demand mode, the
capacity becomes 0; with pooling disabled the capacity is the byte counter and
goes back with it. -/
theorem C17_round_trip (A : BidirectionalFitReuseAllocator P) (sb : Starboard H)
    (m : DecoderBufferAllocator P H) (size alignment : Nat) (context : Int)
    (hfree : ∀ q s a, (A.Allocate q s a).1 ≠ 0 →
      A.GetAllocated (A.Free (A.Allocate q s a).2 (A.Allocate q s a).1) = A.GetAllocated q)
    (hfresh : ∀ i t u c, A.GetAllocated (A.create i t u c) = 0)
    (hcap : ∀ q b, A.GetCapacity (A.Free q b) = A.GetCapacity q)
    (hword : m.using_memory_pool_ = false → m.sbmemory_bytes_used_ < 2 ^ sb.size_t_bits)
    (hok : (Allocate A sb m size alignment context).1 ≠ []) :
    ∃ m2,
      Free A sb (Allocate A sb m size alignment context).2
        (Allocate A sb m size alignment context).1 = some m2 ∧
      GetAllocatedMemory A m2 = GetAllocatedMemory A m ∧
      (m.using_memory_pool_ = true → m2.reuse_allocator_ ≠ none →
        GetCurrentMemoryCapacity A m2 =
          GetCurrentMemoryCapacity A (Allocate A sb m size alignment context).2) ∧
      (m.using_memory_pool_ = true → m2.reuse_allocator_ = none →
        m.is_memory_pool_allocated_on_demand_ = true ∧ GetCurrentMemoryCapacity A m2 = 0) ∧
      (m.using_memory_pool_ = false →
        GetCurrentMemoryCapacity A m2 = GetAllocatedMemory A m) := by
  cases hu : m.using_memory_pool_ with
  | false =>
    have hw := hword hu
    simp [Allocate, Free, hu, GetAllocatedMemory, GetCurrentMemoryCapacity,
      fetch_add_fetch_sub _ _ _ hw]
  | true =>
    have hbefore := GetAllocatedMemory_placement_pool A sb m hu hfresh
    have hback := hfree (placement_pool A sb m) size alignment
    rw [Allocate_pooled A sb m size alignment context hu] at hok ⊢
    generalize A.Allocate (placement_pool A sb m) size alignment = r at hok hback ⊢
    by_cases h0 : r.1 = 0
    · simp [h0] at hok
    · cases hx : A.CapacityExceeded r.2 with
      | true => simp [h0, hx] at hok
      | false =>
        clear hok
        have hback := hback h0
        simp only [h0, hx, if_false, Bool.false_eq_true]
        have hF := Free_live A sb
          { m with reuse_allocator_ := some r.2, allocation_record := (UpdateAllocationRecord A sb m r.2).2 }
          r.2 [(r.1, size)] hu rfl
        rw [hF]
        refine ⟨_, rfl, ?_, ?_, ?_, ?_⟩
        · rw [hbefore, ← hback]
          simp only [List.foldl_cons, List.foldl_nil, GetAllocatedMemory, hu]
          by_cases hz : m.is_memory_pool_allocated_on_demand_ = true ∧
              A.GetAllocated (A.Free r.2 r.1) = 0
          · simp [hz]
          · simp [hz]
        · intro _ hlive2
          simp only [List.foldl_cons, List.foldl_nil, GetCurrentMemoryCapacity, hu] at hlive2 ⊢
          by_cases hz : m.is_memory_pool_allocated_on_demand_ = true ∧
              A.GetAllocated (A.Free r.2 r.1) = 0
          · simp [hz] at hlive2
          · simp [hz, hcap]
        · intro _ hnone
          simp only [List.foldl_cons, List.foldl_nil, GetCurrentMemoryCapacity, hu] at hnone ⊢
          by_cases hz : m.is_memory_pool_allocated_on_demand_ = true ∧
              A.GetAllocated (A.Free r.2 r.1) = 0
          · simp [hz]
          · simp [hz] at hnone
        · intro h
          cases h

/-- Witness of C17 (amended): scenario 4 of the spec, pooling disabled,
`Allocate(4096, 64)` then `Free`: `GetAllocatedMemory()` is back at 0. -/
theorem C17_round_trip_witness :
    ((ref_manager false false).using_memory_pool_ = false →
      (ref_manager false false).sbmemory_bytes_used_ < 2 ^ (ref_starboard false false).size_t_bits) ∧
    (Allocate RefPool.api (ref_starboard false false) (ref_manager false false) 4096 64 0).1 ≠
      [] ∧
    GetAllocatedMemory RefPool.api (ref_manager false false) = 0 ∧
    ∃ m2,
      Free RefPool.api (ref_starboard false false)
        (Allocate RefPool.api (ref_starboard false false) (ref_manager false false) 4096 64 0).2
        (Allocate RefPool.api (ref_starboard false false) (ref_manager false false) 4096 64
          0).1 = some m2 ∧
      GetAllocatedMemory RefPool.api m2 = GetAllocatedMemory RefPool.api (ref_manager false false) :=
  ⟨by decide, by decide, by decide, by
    obtain ⟨m2, h1, h2, _⟩ :=
      C17_round_trip RefPool.api (ref_starboard false false) (ref_manager false false) 4096 64 0
        RefPool.Free_Allocate_GetAllocated RefPool.create_GetAllocated RefPool.Free_GetCapacity
        (by decide) (by decide)
    exact ⟨m2, h1, h2⟩⟩

/-- C18. When pooling is disabled, after every sequence of calls from
construction no pool is live, and `GetCurrentMemoryCapacity()` and
`GetAllocatedMemory()` both are the byte counter; `Allocate(size, ...)` adds
`size` to the counter and `Free` takes the sum of the record's buffer sizes off
it, modulo the word size `2 ^ size_t_bits`. -/
theorem C18_counter_without_pool (A : BidirectionalFitReuseAllocator P) (sb : Starboard H)
    (heap : H) (width0 height0 bits0 : Int) (calls : List Call)
    (hdis : sb.SbMediaIsBufferUsingMemoryPool = false) :
    ∃ m, run A sb (construct A sb heap width0 height0 bits0) calls = some m ∧
      m.using_memory_pool_ = false ∧
      m.reuse_allocator_ = none ∧
      GetCurrentMemoryCapacity A m = m.sbmemory_bytes_used_ ∧
      GetAllocatedMemory A m = m.sbmemory_bytes_used_ ∧
      (∀ size alignment context,
        (Allocate A sb m size alignment context).2.sbmemory_bytes_used_ =
            (m.sbmemory_bytes_used_ + size) % 2 ^ sb.size_t_bits ∧
          (Allocate A sb m size alignment context).2.reuse_allocator_ = none) ∧
      (∀ allocations : Allocations, ∃ m2, Free A sb m allocations = some m2 ∧
        m2.reuse_allocator_ = none ∧
        (m2.sbmemory_bytes_used_ + (allocations.map Prod.snd).sum) % 2 ^ sb.size_t_bits =
          m.sbmemory_bytes_used_ % 2 ^ sb.size_t_bits) := by
  have hfree : ∀ (m : DecoderBufferAllocator P H) (allocations : Allocations),
      m.using_memory_pool_ = false → m.reuse_allocator_ = none →
      ∃ m2, Free A sb m allocations = some m2 ∧ m2.using_memory_pool_ = false ∧
        m2.reuse_allocator_ = none ∧
        (m2.sbmemory_bytes_used_ + (allocations.map Prod.snd).sum) % 2 ^ sb.size_t_bits =
          m.sbmemory_bytes_used_ % 2 ^ sb.size_t_bits := by
    intro m allocations hu hn
    obtain ⟨h1, h2, h3⟩ := Free_loop_without_pool sb allocations m
    refine ⟨_, by simp only [Free, hu, Bool.not_false, if_true], ?_, ?_, h3⟩
    · rw [h1, hu]
    · rw [h2, hn]
  have hrun : ∀ (calls : List Call) (m0 : DecoderBufferAllocator P H),
      m0.using_memory_pool_ = false → m0.reuse_allocator_ = none →
      ∃ m, run A sb m0 calls = some m ∧ m.using_memory_pool_ = false ∧
        m.reuse_allocator_ = none := by
    intro calls
    induction calls with
    | nil =>
      intro m0 hu hn
      exact ⟨m0, rfl, hu, hn⟩
    | cons c cs ih =>
      intro m0 hu hn
      cases c with
      | Allocate size alignment context =>
        simp only [run, step]
        exact ih _ (by simp [Allocate, hu]) (by simp [Allocate, hu, hn])
      | Free allocations =>
        obtain ⟨m2, hm2, hu2, hn2, _⟩ := hfree m0 allocations hu hn
        simp only [run, step, hm2]
        exact ih m2 hu2 hn2
      | UpdateVideoConfig config =>
        simp only [run, step]
        exact ih _ (by simp [UpdateVideoConfig, hu]) (by simp [UpdateVideoConfig, hu, hn])
      | Suspend =>
        simp only [run, step]
        exact ih _ (by simp [Suspend, hu]) (by simp [Suspend, hu, hn])
      | Resume =>
        simp only [run, step]
        exact ih _ (by simp [Resume, hu]) (by simp [Resume, hu, hn])
  obtain ⟨m, hm, hu, hn⟩ := hrun calls (construct A sb heap width0 height0 bits0)
    (by simp [construct, hdis]) (by simp [construct, hdis])
  refine ⟨m, hm, hu, hn, by simp [GetCurrentMemoryCapacity, hu],
    by simp [GetAllocatedMemory, hu], ?_, ?_⟩
  · intro size alignment context
    simp [Allocate, hu, hn]
  · intro allocations
    obtain ⟨m2, hm2, _, hn2, hsum⟩ := hfree m allocations hu hn
    exact ⟨m2, hm2, hn2, hsum⟩

/-- Witness of C18: scenario 4 of the spec on the reference platform without a
pool: after `Allocate(4096, 64)` the capacity and the allocated bytes are 4096
and no pool is live. -/
theorem C18_counter_without_pool_witness :
    (ref_starboard false false).SbMediaIsBufferUsingMemoryPool = false ∧
    (run RefPool.api (ref_starboard false false) (ref_manager false false)
        [Call.Allocate 4096 64 0]).map
      (fun s => (s.reuse_allocator_, GetCurrentMemoryCapacity RefPool.api s,
        GetAllocatedMemory RefPool.api s)) = some (none, 4096, 4096) ∧
    ∃ m, run RefPool.api (ref_starboard false false)
        (construct RefPool.api (ref_starboard false false) 0 (-1) (-1) (-1))
        [Call.Allocate 4096 64 0] = some m ∧
      m.using_memory_pool_ = false ∧ m.reuse_allocator_ = none ∧
      GetCurrentMemoryCapacity RefPool.api m = m.sbmemory_bytes_used_ ∧
      GetAllocatedMemory RefPool.api m = m.sbmemory_bytes_used_ :=
  ⟨by decide, by decide, by
    obtain ⟨m, h1, h2, h3, h4, h5, _⟩ :=
      C18_counter_without_pool RefPool.api (ref_starboard false false) 0 (-1) (-1) (-1)
        [Call.Allocate 4096 64 0] (by decide)
    exact ⟨m, h1, h2, h3, h4, h5⟩⟩

/-- C19, evaluation at the failing input. With pooling disabled and a platform
heap that is exhausted, the platform allocation fails (null), yet
`Allocate(4096, 64)` returns a record of one buffer, the null pointer with size
4096, and `GetAllocatedMemory()` goes from 0 to 4096. -/
theorem C19_failed_platform_allocation_is_counted :
    (ref_starboard_exhausted.SbMemoryAllocateAligned 0 64 4096).1 = 0 ∧
    GetAllocatedMemory RefPool.api
      (construct RefPool.api ref_starboard_exhausted 0 (-1) (-1) (-1)) = 0 ∧
    (Allocate RefPool.api ref_starboard_exhausted
      (construct RefPool.api ref_starboard_exhausted 0 (-1) (-1) (-1)) 4096 64 0).1 =
      [(0, 4096)] ∧
    GetAllocatedMemory RefPool.api
      (Allocate RefPool.api ref_starboard_exhausted
        (construct RefPool.api ref_starboard_exhausted 0 (-1) (-1) (-1)) 4096 64 0).2 =
      4096 := by
  decide

/-- C24. In every state `GetMaximumMemoryCapacity()` equals the reference
definition: 0 when no video codec is recorded, also when a pool with a non-zero
ceiling is live; otherwise the live pool's `max_capacity` when pooling is
enabled and a pool is live; otherwise the platform budget of the recorded
configuration. The function returns a number only: no state is modified. -/
theorem C24_maximum_capacity_reference (A : BidirectionalFitReuseAllocator P)
    (sb : Starboard H) (m : DecoderBufferAllocator P H) :
    GetMaximumMemoryCapacity A sb m = GetMaximumMemoryCapacity_reference A sb m ∧
    (∀ p, m.video_codec_ = SbMediaVideoCodec.kSbMediaVideoCodecNone →
      m.reuse_allocator_ = some p → GetMaximumMemoryCapacity A sb m = 0) := by
  constructor
  · unfold GetMaximumMemoryCapacity GetMaximumMemoryCapacity_reference
    cases hc : m.video_codec_ <;> cases hu : m.using_memory_pool_ <;>
      cases hp : m.reuse_allocator_ <;> simp
  · intro p hc _
    simp [GetMaximumMemoryCapacity, hc]

/-- Witness of C24: on the platform with a codec-blind budget table, after
`UpdateVideoConfig` with no codec the live pool has the ceiling 4 MiB and
`GetMaximumMemoryCapacity()` is 0, as the reference definition says. -/
theorem C24_maximum_capacity_reference_witness :
    (UpdateVideoConfig RefPool.api (ref_starboard_flat true false)
      (construct RefPool.api (ref_starboard_flat true false) 0 (-1) (-1) (-1))
      config_no_codec).reuse_allocator_.map RefPool.api.max_capacity = some (4 * MiB) ∧
    GetMaximumMemoryCapacity RefPool.api (ref_starboard_flat true false)
      (UpdateVideoConfig RefPool.api (ref_starboard_flat true false)
        (construct RefPool.api (ref_starboard_flat true false) 0 (-1) (-1) (-1))
        config_no_codec) =
      GetMaximumMemoryCapacity_reference RefPool.api (ref_starboard_flat true false)
        (UpdateVideoConfig RefPool.api (ref_starboard_flat true false)
          (construct RefPool.api (ref_starboard_flat true false) 0 (-1) (-1) (-1))
          config_no_codec) ∧
    GetMaximumMemoryCapacity_reference RefPool.api (ref_starboard_flat true false)
      (UpdateVideoConfig RefPool.api (ref_starboard_flat true false)
        (construct RefPool.api (ref_starboard_flat true false) 0 (-1) (-1) (-1))
        config_no_codec) = 0 :=
  ⟨by decide,
    (C24_maximum_capacity_reference RefPool.api (ref_starboard_flat true false)
      (UpdateVideoConfig RefPool.api (ref_starboard_flat true false)
        (construct RefPool.api (ref_starboard_flat true false) 0 (-1) (-1) (-1))
        config_no_codec)).1,
    by decide⟩

/-- C23. Denial is sticky once the ceiling is crossed. In pooled mode with a
live pool whose capacity is above a non-zero `max_capacity`, and for a Pool
Allocator that keeps the contract of section 4.1 (`CapacityExceeded()` is true
exactly when a non-zero ceiling is below the capacity; `Allocate` leaves the
ceiling alone, does not change the capacity of a pool that is over its ceiling,
and leaves the allocated bytes alone when it returns null; `Free` undoes the
accounting of a placement and leaves capacity and ceiling alone;
`IncreaseMaxCapacityIfNecessary(n)` sets the ceiling to `max(current, n)` and
leaves the capacity alone): `Allocate` returns an empty record for every size
and alignment and leaves allocated bytes, capacity and ceiling unchanged; in
on-demand mode every sequence of `Allocate`, `Suspend` and `Resume` calls leaves
the pool live with the same three values; and after `UpdateVideoConfig(c)` the
capacity is no longer exceeded exactly when the budget of `c` is at least the
capacity. -/
theorem C23_denial_is_sticky (A : BidirectionalFitReuseAllocator P) (sb : Starboard H)
    (m : DecoderBufferAllocator P H) (p : P)
    (hpool : m.using_memory_pool_ = true)
    (hlive : m.reuse_allocator_ = some p)
    (hceiling : A.max_capacity p ≠ 0)
    (hover : A.max_capacity p < A.GetCapacity p)
    (hspec : ∀ q, A.CapacityExceeded q = true ↔
      (A.max_capacity q ≠ 0 ∧ A.max_capacity q < A.GetCapacity q))
    (hmax : ∀ q s a, A.max_capacity (A.Allocate q s a).2 = A.max_capacity q)
    (hfull : ∀ q s a, A.max_capacity q ≠ 0 → A.max_capacity q < A.GetCapacity q →
      A.GetCapacity (A.Allocate q s a).2 = A.GetCapacity q)
    (hnull : ∀ q s a, (A.Allocate q s a).1 = 0 →
      A.GetAllocated (A.Allocate q s a).2 = A.GetAllocated q)
    (hfree : ∀ q s a, (A.Allocate q s a).1 ≠ 0 →
      A.GetAllocated (A.Free (A.Allocate q s a).2 (A.Allocate q s a).1) = A.GetAllocated q)
    (hfreecap : ∀ q b, A.GetCapacity (A.Free q b) = A.GetCapacity q)
    (hfreemax : ∀ q b, A.max_capacity (A.Free q b) = A.max_capacity q)
    (hincmax : ∀ q n, A.max_capacity (A.IncreaseMaxCapacityIfNecessary q n) =
      max (A.max_capacity q) n)
    (hinccap : ∀ q n, A.GetCapacity (A.IncreaseMaxCapacityIfNecessary q n) =
      A.GetCapacity q) :
    (∀ size alignment context,
      (Allocate A sb m size alignment context).1 = [] ∧
      ∃ q, (Allocate A sb m size alignment context).2.reuse_allocator_ = some q ∧
        A.GetAllocated q = A.GetAllocated p ∧
        A.GetCapacity q = A.GetCapacity p ∧
        A.max_capacity q = A.max_capacity p) ∧
    (m.is_memory_pool_allocated_on_demand_ = true →
      ∀ calls : List Call,
        (∀ c ∈ calls, c = Call.Suspend ∨ c = Call.Resume ∨
          ∃ size alignment context, c = Call.Allocate size alignment context) →
        ∃ m1 q, run A sb m calls = some m1 ∧ m1.reuse_allocator_ = some q ∧
          A.GetAllocated q = A.GetAllocated p ∧
          A.GetCapacity q = A.GetCapacity p ∧
          A.max_capacity q = A.max_capacity p) ∧
    (∀ c : VideoDecoderConfig, ∃ q,
      (UpdateVideoConfig A sb m c).reuse_allocator_ = some q ∧
      (A.CapacityExceeded q = false ↔
        A.GetCapacity p ≤
          to_size_t sb.size_t_bits
            (sb.SbMediaGetMaxBufferCapacity (sb.MediaVideoCodecToSbMediaVideoCodec c.codec)
              c.width c.height c.BitsPerChannel))) := by
  have key : ∀ (m1 : DecoderBufferAllocator P H) (p1 : P) (size alignment : Nat)
      (context : Int),
      m1.using_memory_pool_ = true → m1.reuse_allocator_ = some p1 →
      A.max_capacity p1 ≠ 0 → A.max_capacity p1 < A.GetCapacity p1 →
      (Allocate A sb m1 size alignment context).1 = [] ∧
      (Allocate A sb m1 size alignment context).2.using_memory_pool_ = true ∧
      (Allocate A sb m1 size alignment context).2.is_memory_pool_allocated_on_demand_ =
        m1.is_memory_pool_allocated_on_demand_ ∧
      ∃ q, (Allocate A sb m1 size alignment context).2.reuse_allocator_ = some q ∧
        A.GetAllocated q = A.GetAllocated p1 ∧
        A.GetCapacity q = A.GetCapacity p1 ∧
        A.max_capacity q = A.max_capacity p1 := by
    intro m1 p1 size alignment context hu hp hc ho
    have hpp : placement_pool A sb m1 = p1 := by simp [placement_pool, hp]
    rw [Allocate_pooled A sb m1 size alignment context hu, hpp]
    have hm := hmax p1 size alignment
    have hcp := hfull p1 size alignment hc ho
    by_cases h0 : (A.Allocate p1 size alignment).1 = 0
    · rw [if_pos h0]
      exact ⟨rfl, hu, rfl, _, rfl, hnull p1 size alignment h0, hcp, hm⟩
    · have hx : A.CapacityExceeded (A.Allocate p1 size alignment).2 = true :=
        (hspec _).2 ⟨by rw [hm]; exact hc, by rw [hm, hcp]; exact ho⟩
      rw [if_neg h0, if_pos hx]
      exact ⟨rfl, hu, rfl, _, rfl, hfree p1 size alignment h0, by rw [hfreecap, hcp],
        by rw [hfreemax, hm]⟩
  refine ⟨?_, ?_, ?_⟩
  · intro size alignment context
    obtain ⟨h1, _, _, h4⟩ := key m p size alignment context hpool hlive hceiling hover
    exact ⟨h1, h4⟩
  · intro hod calls
    have hrun : ∀ (calls : List Call) (m1 : DecoderBufferAllocator P H) (p1 : P),
        m1.using_memory_pool_ = true → m1.is_memory_pool_allocated_on_demand_ = true →
        m1.reuse_allocator_ = some p1 →
        A.GetAllocated p1 = A.GetAllocated p → A.GetCapacity p1 = A.GetCapacity p →
        A.max_capacity p1 = A.max_capacity p →
        (∀ c ∈ calls, c = Call.Suspend ∨ c = Call.Resume ∨
          ∃ size alignment context, c = Call.Allocate size alignment context) →
        ∃ m2 q, run A sb m1 calls = some m2 ∧ m2.reuse_allocator_ = some q ∧
          A.GetAllocated q = A.GetAllocated p ∧
          A.GetCapacity q = A.GetCapacity p ∧
          A.max_capacity q = A.max_capacity p := by
      intro calls
      induction calls with
      | nil =>
        intro m1 p1 _ _ hp ha hc hm _
        exact ⟨m1, p1, rfl, hp, ha, hc, hm⟩
      | cons c cs ih =>
        intro m1 p1 hu ho hp ha hc hm hall
        have hrest : ∀ c1 ∈ cs, c1 = Call.Suspend ∨ c1 = Call.Resume ∨
            ∃ size alignment context, c1 = Call.Allocate size alignment context :=
          fun c1 h1 => hall c1 (List.mem_cons_of_mem _ h1)
        rcases hall c (List.mem_cons_self _ _) with h | h | ⟨size, alignment, context, h⟩
        · subst h
          have hs : Suspend A m1 = m1 := by simp [Suspend, ho]
          simp only [run, step, hs]
          exact ih m1 p1 hu ho hp ha hc hm hrest
        · subst h
          have hs : Resume A sb m1 = m1 := by simp [Resume, ho]
          simp only [run, step, hs]
          exact ih m1 p1 hu ho hp ha hc hm hrest
        · subst h
          obtain ⟨_, hu2, ho2, q, hq, hqa, hqc, hqm⟩ :=
            key m1 p1 size alignment context hu hp (by rw [hm]; exact hceiling)
              (by rw [hm, hc]; exact hover)
          simp only [run, step]
          exact ih _ q hu2 (by rw [ho2]; exact ho) hq (by rw [hqa, ha]) (by rw [hqc, hc])
            (by rw [hqm, hm]) hrest
    exact hrun calls m p hpool hod hlive rfl rfl rfl
  · intro c
    rw [UpdateVideoConfig_live A sb m p c hpool hlive]
    refine ⟨_, rfl, ?_⟩
    constructor
    · intro hx
      by_contra hcon
      have hlt : max (A.max_capacity p)
          (to_size_t sb.size_t_bits
            (sb.SbMediaGetMaxBufferCapacity (sb.MediaVideoCodecToSbMediaVideoCodec c.codec)
              c.width c.height c.BitsPerChannel)) < A.GetCapacity p := by
        rw [Nat.max_lt]
        exact ⟨hover, Nat.lt_of_not_le hcon⟩
      have : A.CapacityExceeded (A.IncreaseMaxCapacityIfNecessary p
          (to_size_t sb.size_t_bits
            (sb.SbMediaGetMaxBufferCapacity (sb.MediaVideoCodecToSbMediaVideoCodec c.codec)
              c.width c.height c.BitsPerChannel))) = true := by
        apply (hspec _).2
        rw [hincmax, hinccap]
        refine ⟨?_, hlt⟩
        have := Nat.le_max_left (A.max_capacity p)
          (to_size_t sb.size_t_bits
            (sb.SbMediaGetMaxBufferCapacity (sb.MediaVideoCodecToSbMediaVideoCodec c.codec)
              c.width c.height c.BitsPerChannel))
        omega
      rw [hx] at this
      cases this
    · intro hle
      cases hx : A.CapacityExceeded (A.IncreaseMaxCapacityIfNecessary p
          (to_size_t sb.size_t_bits
            (sb.SbMediaGetMaxBufferCapacity (sb.MediaVideoCodecToSbMediaVideoCodec c.codec)
              c.width c.height c.BitsPerChannel))) with
      | false => rfl
      | true =>
        have h2 := ((hspec _).1 hx).2
        rw [hincmax, hinccap] at h2
        have := Nat.le_max_right (A.max_capacity p)
          (to_size_t sb.size_t_bits
            (sb.SbMediaGetMaxBufferCapacity (sb.MediaVideoCodecToSbMediaVideoCodec c.codec)
              c.width c.height c.BitsPerChannel))
        omega

/-- Witness of C23: the on-demand reference Manager with 3 MiB reserved under a
ceiling of 512 KiB; `Allocate(4096, 16)` would fit in the free 1 MiB and is
denied. -/
theorem C23_denial_is_sticky_witness :
    ref_on_demand_over.using_memory_pool_ = true ∧
    ref_on_demand_over.reuse_allocator_ = some ref_on_demand_over_pool ∧
    RefPool.api.max_capacity ref_on_demand_over_pool = 512 * 1024 ∧
    RefPool.api.GetCapacity ref_on_demand_over_pool = 3 * MiB ∧
    ref_on_demand_over_pool.free_bytes = MiB ∧
    (Allocate RefPool.api (ref_starboard true true) ref_on_demand_over 4096 16 0).1 = [] :=
  ⟨by decide, by decide, by decide, by decide, by decide,
    ((C23_denial_is_sticky RefPool.api (ref_starboard true true) ref_on_demand_over
      ref_on_demand_over_pool (by decide) (by decide) (by decide) (by decide)
      RefPool.CapacityExceeded_iff RefPool.Allocate_max_capacity
      RefPool.Allocate_GetCapacity_over RefPool.Allocate_null_GetAllocated
      RefPool.Free_Allocate_GetAllocated RefPool.Free_GetCapacity RefPool.Free_max_capacity
      (fun _ _ => rfl) (fun _ _ => rfl)).1 4096 16 0).1⟩

/-- C21, counterexample. On the eager reference Manager `Suspend()` right after
construction destroys the idle pool; an `Allocate` made then finds no live pool
although the Manager is not on-demand, so
`DCHECK(is_memory_pool_allocated_on_demand_)` fails (the release build goes on
and creates a pool). -/
theorem C21_allocate_while_suspended_counterexample :
    (run RefPool.api (ref_starboard true false) (ref_manager true false) [Call.Suspend]).map
      (fun s => (s.using_memory_pool_, s.is_memory_pool_allocated_on_demand_,
        s.reuse_allocator_, Allocate_DCHECK_on_demand s)) = some (true, false, none, false) ∧
    (run RefPool.api (ref_starboard true false) (ref_manager true false)
        [Call.Suspend, Call.Allocate 4096 16 0]).map
      (fun s => s.reuse_allocator_.isSome) = some true := by
  decide

/-- C21, amended. For every sequence of public calls from construction in which
(in pooled eager mode) no `Allocate` is made between a `Suspend()` and the next
`Resume()`: at every `Allocate` of the sequence
`DCHECK(is_memory_pool_allocated_on_demand_)` holds, that is, if pooling is on
and no pool is live then the Manager is on-demand. -/
theorem C21_allocate_finds_pool_when_resumed (A : BidirectionalFitReuseAllocator P)
    (sb : Starboard H) (heap : H) (width0 height0 bits0 : Int)
    (before after : List Call) (size alignment : Nat) (context : Int)
    (m : DecoderBufferAllocator P H)
    (hdiscipline : sb.SbMediaIsBufferUsingMemoryPool = true →
      sb.SbMediaIsBufferPoolAllocateOnDemand = false →
      resumed_at_allocate false (before ++ Call.Allocate size alignment context :: after) = true)
    (hrun : run A sb (construct A sb heap width0 height0 bits0) before = some m) :
    Allocate_DCHECK_on_demand m = true := by
  obtain ⟨hu, ho⟩ := run_mode A sb before _ m hrun
  have hu0 : (construct A sb heap width0 height0 bits0).using_memory_pool_ =
      sb.SbMediaIsBufferUsingMemoryPool := by
    unfold construct
    cases sb.SbMediaIsBufferUsingMemoryPool <;> cases sb.SbMediaIsBufferPoolAllocateOnDemand <;>
      simp [CreateReuseAllocator]
  have ho0 : (construct A sb heap width0 height0 bits0).is_memory_pool_allocated_on_demand_ =
      sb.SbMediaIsBufferPoolAllocateOnDemand := by
    unfold construct
    cases sb.SbMediaIsBufferUsingMemoryPool <;> cases sb.SbMediaIsBufferPoolAllocateOnDemand <;>
      simp [CreateReuseAllocator]
  rw [hu0] at hu
  rw [ho0] at ho
  cases hsu : sb.SbMediaIsBufferUsingMemoryPool with
  | false => simp [Allocate_DCHECK_on_demand, hu, hsu]
  | true =>
    cases hso : sb.SbMediaIsBufferPoolAllocateOnDemand with
    | true =>
      unfold Allocate_DCHECK_on_demand
      cases hp : m.reuse_allocator_ <;> simp [hu, ho, hsu, hso]
    | false =>
      have hd := hdiscipline hsu hso
      have key : ∀ (before : List Call) (suspended : Bool) (m0 m1 : DecoderBufferAllocator P H),
          m0.using_memory_pool_ = true → m0.is_memory_pool_allocated_on_demand_ = false →
          (suspended = false → m0.reuse_allocator_.isSome = true) →
          resumed_at_allocate suspended
            (before ++ Call.Allocate size alignment context :: after) = true →
          run A sb m0 before = some m1 → m1.reuse_allocator_.isSome = true := by
        intro before
        induction before with
        | nil =>
          intro suspended m0 m1 _ _ hinv hres hr
          simp only [run, Option.some.injEq] at hr
          subst hr
          simp only [List.nil_append, resumed_at_allocate, Bool.and_eq_true,
            Bool.not_eq_true'] at hres
          exact hinv hres.1
        | cons c cs ih =>
          intro suspended m0 m1 hu1 ho1 hinv hres hr
          simp only [run] at hr
          cases hs : step A sb m0 c with
          | none => simp [hs] at hr
          | some m2 =>
            simp only [hs] at hr
            obtain ⟨hu2, ho2⟩ := step_mode A sb m0 m2 c hs
            rw [hu1] at hu2
            rw [ho1] at ho2
            cases c with
            | Allocate size1 alignment1 context1 =>
              simp only [List.cons_append, resumed_at_allocate, Bool.and_eq_true,
                Bool.not_eq_true'] at hres
              simp only [step, Option.some.injEq] at hs
              subst hs
              exact ih suspended _ m1 hu2 ho2
                (fun _ => Allocate_pool_isSome A sb m0 size1 alignment1 context1 hu1)
                hres.2 hr
            | Free allocations =>
              simp only [List.cons_append, resumed_at_allocate] at hres
              refine ih suspended m2 m1 hu2 ho2 ?_ hres hr
              intro hsusp
              have hlive := hinv hsusp
              cases hp : m0.reuse_allocator_ with
              | none => simp [hp] at hlive
              | some p =>
                simp only [step] at hs
                rw [Free_live A sb m0 p allocations hu1 hp, Option.some.injEq] at hs
                subst hs
                simp [ho1]
            | UpdateVideoConfig config =>
              simp only [List.cons_append, resumed_at_allocate] at hres
              simp only [step, Option.some.injEq] at hs
              subst hs
              refine ih suspended _ m1 hu2 ho2 ?_ hres hr
              intro hsusp
              rw [UpdateVideoConfig_isSome]
              exact hinv hsusp
            | Suspend =>
              simp only [List.cons_append, resumed_at_allocate] at hres
              exact ih true m2 m1 hu2 ho2 (fun h => by cases h) hres hr
            | Resume =>
              simp only [List.cons_append, resumed_at_allocate] at hres
              simp only [step, Option.some.injEq] at hs
              subst hs
              refine ih false _ m1 hu2 ho2 ?_ hres hr
              intro _
              unfold Resume
              cases hp : m0.reuse_allocator_ <;> simp [hu1, ho1, hp, CreateReuseAllocator]
      have hlive0 : (construct A sb heap width0 height0 bits0).reuse_allocator_.isSome = true := by
        simp [construct, hsu, hso, CreateReuseAllocator]
      have := key before false _ m (by rw [hu0, hsu]) (by rw [ho0, hso]) (fun _ => hlive0) hd hrun
      unfold Allocate_DCHECK_on_demand
      cases hp : m.reuse_allocator_ with
      | none => simp [hp] at this
      | some p => simp [hu, hsu]

/-- Witness of C21 (amended): on the eager reference Manager, `Suspend()`,
`Resume()` and then `Allocate(4096, 16)`: the `Allocate` finds a live pool. -/
theorem C21_allocate_finds_pool_when_resumed_witness :
    ((ref_starboard true false).SbMediaIsBufferUsingMemoryPool = true →
      (ref_starboard true false).SbMediaIsBufferPoolAllocateOnDemand = false →
      resumed_at_allocate false
        ([Call.Suspend, Call.Resume] ++ Call.Allocate 4096 16 0 :: []) = true) ∧
    run RefPool.api (ref_starboard true false)
      (construct RefPool.api (ref_starboard true false) 0 (-1) (-1) (-1))
      [Call.Suspend, Call.Resume] =
      some (Resume RefPool.api (ref_starboard true false)
        (Suspend RefPool.api (ref_manager true false))) ∧
    Allocate_DCHECK_on_demand
      (Resume RefPool.api (ref_starboard true false)
        (Suspend RefPool.api (ref_manager true false))) = true :=
  ⟨fun _ _ => by decide, rfl,
    C21_allocate_finds_pool_when_resumed RefPool.api (ref_starboard true false) 0 (-1) (-1) (-1)
      [Call.Suspend, Call.Resume] [] 4096 16 0 _ (fun _ _ => by decide) rfl⟩

/-- C22, counterexample. On the on-demand reference Manager: `Allocate(4096,
16)` returns `[(16, 4096)]`; after `UpdateVideoConfig(config_4MiB)` an
`Allocate(8 MiB, 16)` is denied and returns the empty record; the `Free` of the
first record releases the last allocation and destroys the pool; the `Free` of
the empty record then finds no pool: `DCHECK(reuse_allocator_)` fails and the
absent pool is dereferenced at line 178. Each record is freed exactly once. -/
theorem C22_free_of_empty_record_counterexample :
    (Allocate RefPool.api (ref_starboard true true) (ref_manager true true) 4096 16 0).1 =
      [(16, 4096)] ∧
    (run RefPool.api (ref_starboard true true) (ref_manager true true)
        [Call.Allocate 4096 16 0, Call.UpdateVideoConfig config_4MiB]).map
      (fun s => (Allocate RefPool.api (ref_starboard true true) s (8 * MiB) 16 0).1) =
      some [] ∧
    (run RefPool.api (ref_starboard true true) (ref_manager true true)
        [Call.Allocate 4096 16 0, Call.UpdateVideoConfig config_4MiB,
          Call.Allocate (8 * MiB) 16 0, Call.Free [(16, 4096)]]).map
      (fun s => (s.reuse_allocator_, Free_DCHECK s,
        (Free RefPool.api (ref_starboard true true) s []).isSome)) =
      some (none, false, false) := by
  decide

/-- C22, amended. In pooled mode, for a Pool Allocator that keeps track of its
live pointers (`PoolTracks`) and for every sequence of `Allocate`, `Free`,
`UpdateVideoConfig`, `Suspend` and `Resume` calls from construction in which
`Free` is called only for non-empty records returned by `Allocate` and not yet
freed: every such `Free` finds a live pool, so that `DCHECK(reuse_allocator_)`
holds and the pool is not dereferenced while absent. -/
theorem C22_free_of_held_record_finds_pool (A : BidirectionalFitReuseAllocator P)
    (sb : Starboard H) (heap : H) (width0 height0 bits0 : Int) (calls : List Call)
    (Inv : P → Prop) (live : P → List Nat)
    (hpool : sb.SbMediaIsBufferUsingMemoryPool = true)
    (htracks : PoolTracks A Inv live) :
    (client_run A sb (construct A sb heap width0 height0 bits0) [] calls).is_pool_absent =
      false := by
  have key : ∀ (calls : List Call) (m : DecoderBufferAllocator P H) (held : List Allocations),
      m.using_memory_pool_ = true →
      (∀ r ∈ held, ∃ q s, r = [(q, s)]) →
      (m.reuse_allocator_ = none → held = []) →
      (∀ p, m.reuse_allocator_ = some p → Inv p ∧ (held.map first_buffer).Perm (live p)) →
      (client_run A sb m held calls).is_pool_absent = false := by
    intro calls
    induction calls with
    | nil =>
      intro m held _ _ _ _
      rfl
    | cons c cs ih =>
      intro m held hu hshape hnone hsome
      cases c with
      | Allocate size alignment context =>
        simp only [client_run]
        have hp0 : Inv (placement_pool A sb m) ∧
            (held.map first_buffer).Perm (live (placement_pool A sb m)) := by
          cases hp : m.reuse_allocator_ with
          | some p =>
            have : placement_pool A sb m = p := by simp [placement_pool, hp]
            rw [this]
            exact hsome p hp
          | none =>
            have h1 : held = [] := hnone hp
            simp only [placement_pool, hp]
            rw [h1, htracks.create_live]
            exact ⟨htracks.create_inv _ _ _ _, List.Perm.nil⟩
        rw [Allocate_pooled A sb m size alignment context hu]
        generalize placement_pool A sb m = p0 at hp0 ⊢
        obtain ⟨hinv0, hperm0⟩ := hp0
        by_cases h0 : (A.Allocate p0 size alignment).1 = 0
        · rw [if_pos h0]
          simp only [if_true]
          refine ih _ held hu hshape (fun h => by cases h) ?_
          intro p hp
          simp only [Option.some.injEq] at hp
          subst hp
          refine ⟨htracks.allocate_inv p0 size alignment hinv0, ?_⟩
          rw [htracks.allocate_null p0 size alignment hinv0 h0]
          exact hperm0
        · have hlive := htracks.allocate_live p0 size alignment hinv0 h0
          cases hx : A.CapacityExceeded (A.Allocate p0 size alignment).2 with
          | true =>
            rw [if_neg h0, if_pos rfl]
            simp only [if_true]
            refine ih _ held hu hshape (fun h => by cases h) ?_
            intro p hp
            simp only [Option.some.injEq] at hp
            subst hp
            have hmem : (A.Allocate p0 size alignment).1 ∈
                live (A.Allocate p0 size alignment).2 := by
              rw [hlive]
              exact List.mem_cons_self _ _
            refine ⟨htracks.free_inv _ _ (htracks.allocate_inv p0 size alignment hinv0) hmem,
              ?_⟩
            rw [htracks.free_live _ _ (htracks.allocate_inv p0 size alignment hinv0) hmem,
              hlive, List.erase_cons_head]
            exact hperm0
          | false =>
            rw [if_neg h0, if_neg (by simp)]
            simp only [List.cons_ne_nil, if_false, reduceCtorEq]
            refine ih _ _ hu ?_ (fun h => by cases h) ?_
            · intro r hr
              rcases List.mem_cons.1 hr with hr | hr
              · exact ⟨_, _, hr⟩
              · exact hshape r hr
            · intro p hp
              simp only [Option.some.injEq] at hp
              subst hp
              refine ⟨htracks.allocate_inv p0 size alignment hinv0, ?_⟩
              rw [hlive]
              simp only [List.map_cons, first_buffer]
              exact List.Perm.cons _ hperm0
      | Free allocations =>
        simp only [client_run]
        by_cases hmem : allocations ∈ held
        · rw [if_pos hmem]
          cases hp : m.reuse_allocator_ with
          | none =>
            have := hnone hp
            rw [this] at hmem
            cases hmem
          | some p =>
            obtain ⟨hinv, hperm⟩ := hsome p hp
            obtain ⟨q, s, hrec⟩ := hshape allocations hmem
            have hdc : Free_DCHECK m = true := by simp [Free_DCHECK, hp]
            rw [if_pos hdc, Free_live A sb m p allocations hu hp]
            simp only []
            have hq : q ∈ live p := by
              refine (List.Perm.mem_iff hperm).1 ?_
              refine List.mem_map.2 ⟨allocations, hmem, ?_⟩
              rw [hrec]
              rfl
            have hfold : allocations.foldl (fun q1 b => A.Free q1 b.1) p = A.Free p q := by
              rw [hrec]
              rfl
            rw [hfold]
            have hinv1 := htracks.free_inv p q hinv hq
            have hlive1 := htracks.free_live p q hinv hq
            have hperm1 : ((held.erase allocations).map first_buffer).Perm
                (live (A.Free p q)) := by
              rw [hlive1]
              have h1 : (held.map first_buffer).Perm
                  (q :: (held.erase allocations).map first_buffer) := by
                have := (held_perm_cons_erase allocations held hmem).map first_buffer
                simpa [hrec, first_buffer] using this
              have h2 := (h1.symm.trans hperm).erase q
              rw [List.erase_cons_head] at h2
              exact h2
            refine ih _ _ hu ?_ ?_ ?_
            · intro r hr
              exact hshape r (List.mem_of_mem_erase hr)
            · intro hn
              by_cases hc : m.is_memory_pool_allocated_on_demand_ = true ∧
                  A.GetAllocated (A.Free p q) = 0
              · have hl := htracks.idle_live _ hinv1 hc.2
                rw [hl] at hperm1
                exact List.map_eq_nil_iff.1 (List.Perm.eq_nil hperm1)
              · simp [hc] at hn
            · intro p1 hp1
              by_cases hc : m.is_memory_pool_allocated_on_demand_ = true ∧
                  A.GetAllocated (A.Free p q) = 0
              · simp [hc] at hp1
              · simp only [hc, if_false, Option.some.injEq] at hp1
                subst hp1
                exact ⟨hinv1, hperm1⟩
        · rw [if_neg hmem]
          rfl
      | UpdateVideoConfig config =>
        simp only [client_run]
        cases hp : m.reuse_allocator_ with
        | none =>
          refine ih _ held ?_ hshape (fun _ => hnone hp) ?_
          · simp [UpdateVideoConfig, hu, hp]
          · intro p1 hp1
            simp [UpdateVideoConfig, hu, hp] at hp1
        | some p =>
          obtain ⟨hinv, hperm⟩ := hsome p hp
          rw [UpdateVideoConfig_live A sb m p config hu hp]
          refine ih _ held hu hshape (fun h => by cases h) ?_
          intro p1 hp1
          simp only [Option.some.injEq] at hp1
          subst hp1
          exact ⟨htracks.increase_inv _ _ hinv, by rw [htracks.increase_live]; exact hperm⟩
      | Suspend =>
        simp only [client_run]
        cases hp : m.reuse_allocator_ with
        | none =>
          have hs : Suspend A m = m := by
            unfold Suspend
            simp [hp]
          rw [hs]
          exact ih m held hu hshape hnone hsome
        | some p =>
          obtain ⟨hinv, hperm⟩ := hsome p hp
          by_cases hc : m.is_memory_pool_allocated_on_demand_ = false ∧ A.GetAllocated p = 0
          · have hs : Suspend A m = { m with reuse_allocator_ := none } := by
              simp [Suspend, hu, hp, hc.1, hc.2]
            rw [hs]
            have hl := htracks.idle_live p hinv hc.2
            rw [hl] at hperm
            have hheld : held = [] := List.map_eq_nil_iff.1 (List.Perm.eq_nil hperm)
            refine ih _ held hu hshape (fun _ => hheld) ?_
            intro p1 hp1
            cases hp1
          · have hs : Suspend A m = m := by
              unfold Suspend
              cases hod : m.is_memory_pool_allocated_on_demand_ with
              | true => simp [hu]
              | false =>
                have hz : ¬ A.GetAllocated p = 0 := fun h => hc ⟨hod, h⟩
                simp [hu, hp, hz]
            rw [hs]
            exact ih m held hu hshape hnone hsome
      | Resume =>
        simp only [client_run]
        by_cases hc : m.is_memory_pool_allocated_on_demand_ = false ∧ m.reuse_allocator_ = none
        · have hs : Resume A sb m = CreateReuseAllocator A sb m 0 := by
            simp [Resume, hu, hc.1, hc.2]
          rw [hs]
          have hheld := hnone hc.2
          refine ih _ held hu hshape (fun h => by simp [CreateReuseAllocator] at h) ?_
          intro p1 hp1
          simp only [CreateReuseAllocator, Option.some.injEq] at hp1
          subst hp1
          rw [hheld, htracks.create_live]
          exact ⟨htracks.create_inv _ _ _ _, List.Perm.nil⟩
        · have hs : Resume A sb m = m := by
            unfold Resume
            cases hod : m.is_memory_pool_allocated_on_demand_ with
            | true => simp [hu]
            | false =>
              cases hp : m.reuse_allocator_ with
              | none => exact absurd ⟨hod, hp⟩ hc
              | some p => simp [hu]
          rw [hs]
          exact ih m held hu hshape hnone hsome
  refine key calls _ [] ?_ ?_ ?_ ?_
  · unfold construct
    cases sb.SbMediaIsBufferPoolAllocateOnDemand <;> simp [hpool, CreateReuseAllocator]
  · intro r hr
    cases hr
  · intro _
    rfl
  · intro p hp
    have hc : p = A.create (to_size_t sb.size_t_bits sb.SbMediaGetInitialBufferCapacity)
        kSmallAllocationThreshold (to_size_t sb.size_t_bits sb.SbMediaGetBufferAllocationUnit)
        (to_size_t sb.size_t_bits 0) := by
      unfold construct at hp
      cases hod : sb.SbMediaIsBufferPoolAllocateOnDemand with
      | true => simp [hpool, hod] at hp
      | false =>
        simp only [hpool, hod, CreateReuseAllocator] at hp
        simpa using hp.symm
    rw [hc, htracks.create_live]
    exact ⟨htracks.create_inv _ _ _ _, List.Perm.nil⟩

/-- Witness of C22 (amended): on the on-demand Manager over the reference pool
with a minimum block size, two buffers are allocated and freed in the order of
allocation; both `Free`s find the pool and the client holds nothing at the
end. -/
theorem C22_free_of_held_record_finds_pool_witness :
    (ref_starboard true true).SbMediaIsBufferUsingMemoryPool = true ∧
    PoolTracks RefPool.api_min_block RefPool.all_counted RefPool.live_pointers ∧
    (client_run RefPool.api_min_block (ref_starboard true true)
      (construct RefPool.api_min_block (ref_starboard true true) 0 (-1) (-1) (-1)) []
      [Call.Allocate 4096 16 0, Call.Allocate 4096 16 0, Call.Free [(16, 4096)],
        Call.Free [(4128, 4096)]]).held_records = some [] ∧
    (client_run RefPool.api_min_block (ref_starboard true true)
      (construct RefPool.api_min_block (ref_starboard true true) 0 (-1) (-1) (-1)) []
      [Call.Allocate 4096 16 0, Call.Allocate 4096 16 0, Call.Free [(16, 4096)],
        Call.Free [(4128, 4096)]]).is_pool_absent = false :=
  ⟨by decide, RefPool.api_min_block_tracks, by decide,
    C22_free_of_held_record_finds_pool RefPool.api_min_block (ref_starboard true true) 0
      (-1) (-1) (-1)
      [Call.Allocate 4096 16 0, Call.Allocate 4096 16 0, Call.Free [(16, 4096)],
        Call.Free [(4128, 4096)]]
      RefPool.all_counted RefPool.live_pointers (by decide) RefPool.api_min_block_tracks⟩

end DecoderBufferAllocator
end media
end cobalt
